import Mathlib

/-!
Verification of the r3l provenance pipeline against its specification.

The development shallowly embeds the Rust sources:
  * the zkVM guest program `services/prover/program/src/main.rs`
    (`verify_and_extract`, `unsigned_outputs`, `determine_trust_level`,
    `extract_cert_names`, `extract_claim_generator`, `extract_from_actions`);
  * the host-side evidence extractor `services/prover/script/src/jumbf_extract.rs`
    (PNG / JPEG / BMFF dissectors, JUMBF box walker);
  * the trusted verifier `services/verifier/src/lib.rs`;
  * the on-chain program `services/provenance_attestation/.../lib.rs`
    (`submit_proof`, `submit_attestation`, `parse_public_outputs`,
    `read_bincode_string`) and its state in `state.rs`.

Bytes are modelled as `List Nat` (each entry a `u8` value).  External crates
(coset, ciborium, p256, x509-cert, sha2, c2pa-rs, the Solana runtime) are
modelled as explicit oracle parameters: the embedding captures exactly the
control and data flow of the repository's own code, universally quantified
over the behaviour of the external primitives.
-/

set_option linter.unusedVariables false

abbrev Bytes : Type := List Nat

/-- ASCII byte sequence of a string literal (used for the source's byte-string
literals such as `b"jumb"`, `b"caBX"` and the label constants). -/
def ascii (s : String) : Bytes := s.data.map Char.toNat

/-- Big-endian 16-bit read at index `i` (models `u16::from_be_bytes`). -/
def be16 (d : Bytes) (i : Nat) : Nat := d.getD i 0 * 256 + d.getD (i + 1) 0

/-- Big-endian 32-bit read at index `i` (models `u32::from_be_bytes`). -/
def be32 (d : Bytes) (i : Nat) : Nat :=
  ((d.getD i 0 * 256 + d.getD (i + 1) 0) * 256 + d.getD (i + 2) 0) * 256 + d.getD (i + 3) 0

/-- Little-endian 8-byte encoding of `n` (models `u64::to_le_bytes`). -/
def toLe8 (n : Nat) : Bytes :=
  [n % 256, n / 256 % 256, n / 256 ^ 2 % 256, n / 256 ^ 3 % 256,
   n / 256 ^ 4 % 256, n / 256 ^ 5 % 256, n / 256 ^ 6 % 256, n / 256 ^ 7 % 256]

/-- Little-endian 8-byte decoding (models `u64::from_le_bytes`). -/
def fromLe8 (d : Bytes) : Nat :=
  d.getD 0 0 + 256 * (d.getD 1 0 + 256 * (d.getD 2 0 + 256 * (d.getD 3 0 +
    256 * (d.getD 4 0 + 256 * (d.getD 5 0 + 256 * (d.getD 6 0 + 256 * d.getD 7 0))))))

theorem toLe8_length (n : Nat) : (toLe8 n).length = 8 := rfl

theorem fromLe8_toLe8 (n : Nat) (h : n < 2 ^ 64) : fromLe8 (toLe8 n) = n := by
  simp [toLe8, fromLe8, List.getD]
  omega

/-- Lower-case hex digit for a value `< 16` (models the `hex` crate's alphabet). -/
def hexDigit (n : Nat) : Char :=
  if n < 10 then Char.ofNat (48 + n) else Char.ofNat (87 + n)

/-- Lower-case hex encoding of a byte list (models `hex::encode`). -/
def hex_encode (d : Bytes) : String :=
  String.mk (d.flatMap fun b => [hexDigit (b / 16 % 16), hexDigit (b % 16)])

/-- UTF-8 validity of a byte list, following the checks performed by Rust's
`core::str::from_utf8` (rejecting overlong forms, surrogates and values
above U+10FFFF).  A Rust `String` is exactly a byte vector accepted by this
predicate, so the embedding models Rust strings as their UTF-8 bytes. -/
def isValidUtf8 : Bytes → Bool
  | [] => true
  | b :: rest =>
    if b < 0x80 then isValidUtf8 rest
    else if 0xC2 ≤ b ∧ b ≤ 0xDF then
      match rest with
      | c1 :: r => 0x80 ≤ c1 && c1 ≤ 0xBF && isValidUtf8 r
      | [] => false
    else if b = 0xE0 then
      match rest with
      | c1 :: c2 :: r => 0xA0 ≤ c1 && c1 ≤ 0xBF && (0x80 ≤ c2 && c2 ≤ 0xBF) && isValidUtf8 r
      | _ => false
    else if b = 0xED then
      match rest with
      | c1 :: c2 :: r => 0x80 ≤ c1 && c1 ≤ 0x9F && (0x80 ≤ c2 && c2 ≤ 0xBF) && isValidUtf8 r
      | _ => false
    else if (0xE1 ≤ b ∧ b ≤ 0xEC) ∨ (0xEE ≤ b ∧ b ≤ 0xEF) then
      match rest with
      | c1 :: c2 :: r =>
        0x80 ≤ c1 && c1 ≤ 0xBF && (0x80 ≤ c2 && c2 ≤ 0xBF) && isValidUtf8 r
      | _ => false
    else if b = 0xF0 then
      match rest with
      | c1 :: c2 :: c3 :: r =>
        0x90 ≤ c1 && c1 ≤ 0xBF && (0x80 ≤ c2 && c2 ≤ 0xBF) && (0x80 ≤ c3 && c3 ≤ 0xBF) &&
          isValidUtf8 r
      | _ => false
    else if 0xF1 ≤ b ∧ b ≤ 0xF3 then
      match rest with
      | c1 :: c2 :: c3 :: r =>
        0x80 ≤ c1 && c1 ≤ 0xBF && (0x80 ≤ c2 && c2 ≤ 0xBF) && (0x80 ≤ c3 && c3 ≤ 0xBF) &&
          isValidUtf8 r
      | _ => false
    else if b = 0xF4 then
      match rest with
      | c1 :: c2 :: c3 :: r =>
        0x80 ≤ c1 && c1 ≤ 0x8F && (0x80 ≤ c2 && c2 ≤ 0xBF) && (0x80 ≤ c3 && c3 ≤ 0xBF) &&
          isValidUtf8 r
      | _ => false
    else false

/-! ## CBOR values and COSE structures (ciborium / coset crates, as data) -/

/-- `ciborium::Value`, restricted to the constructors the repository code
inspects; every other variant is collapsed into `other`, on which the
accessors below return `none`, exactly as `as_map` / `as_text` / `as_array`
do in ciborium. -/
inductive CVal : Type where
  | integer : Int → CVal
  | bytes : Bytes → CVal
  | text : String → CVal
  | array : List CVal → CVal
  | map : List (CVal × CVal) → CVal
  | other : CVal

/-- `Value::as_map`. -/
def CVal.asMap : CVal → Option (List (CVal × CVal))
  | .map m => some m
  | _ => none

/-- `Value::as_text`. -/
def CVal.asText : CVal → Option String
  | .text s => some s
  | _ => none

/-- `Value::as_array`. -/
def CVal.asArray : CVal → Option (List CVal)
  | .array a => some a
  | _ => none

/-- `coset::Label`: an integer or text COSE header label. -/
inductive LabelE : Type where
  | int : Int → LabelE
  | text : String → LabelE
deriving DecidableEq

/-- `coset::Algorithm` (`RegisteredLabelWithPrivate<iana::Algorithm>`):
IANA-assigned algorithms are carried by their COSE numeric value
(ES256 = -7, EdDSA = -8). -/
inductive AlgE : Type where
  | assigned : Int → AlgE
  | privateUse : Int → AlgE
  | text : String → AlgE
deriving DecidableEq

/-- The parts of a decoded `coset::CoseSign1` that the repository reads:
the protected header's `alg`, the raw bytes the protected header was decoded
from (`protected.original_data`), the remaining protected and unprotected
header parameters (`header.rest`), and the signature bytes. -/
structure CoseSign1E : Type where
  protectedAlg : Option AlgE
  protectedOriginal : Option Bytes
  protectedRest : List (LabelE × CVal)
  unprotectedRest : List (LabelE × CVal)
  signature : Bytes

/-- The parts of a decoded `x509_cert::Certificate` that the guest reads:
`subject_public_key_info.subject_public_key.raw_bytes()` and the issuer and
subject RDN sequences.  Each RDN is a list of (OID in dotted decimal, raw
attribute value octets) pairs. -/
structure CertE : Type where
  spkiSubjectPublicKey : Bytes
  issuer : List (List (String × Bytes))
  subject : List (List (String × Bytes))

/-- Opaque handle for a parsed `p256::ecdsa::VerifyingKey`. -/
structure PubKeyE : Type where
  raw : Bytes

/-- Opaque handle for a parsed `p256::ecdsa::Signature`. -/
structure SigE : Type where
  raw : Bytes

/-- Oracle bundle for the external crates the pipeline calls: COSE / CBOR
parsing and serialization (coset, ciborium), X.509 DER decoding (x509-cert),
P-256 key / signature parsing and ECDSA verification (p256), SHA-256 (sha2)
and `String::from_utf8_lossy`.  The embedding is universally quantified over
these, so the theorems hold for every behaviour of the external crates. -/
structure CryptoOracle : Type where
  coseFromTagged : Bytes → Option CoseSign1E
  coseFromSlice : Bytes → Option CoseSign1E
  certFromDer : Bytes → Option CertE
  keyFromSec1 : Bytes → Option PubKeyE
  sigFromSlice : Bytes → Option SigE
  cborSerialize : CVal → Option Bytes
  ecdsaVerify : PubKeyE → Bytes → SigE → Bool
  cborDecode : Bytes → Option CVal
  utf8Lossy : Bytes → String
  sha256 : Bytes → Bytes

/-- `CoseSign1::from_tagged_slice(..).or_else(|_| CoseSign1::from_slice(..))`. -/
def coseParse (o : CryptoOracle) (b : Bytes) : Option CoseSign1E :=
  (o.coseFromTagged b).orElse fun _ => o.coseFromSlice b

/-! ## The zkVM guest program (`services/prover/program/src/main.rs`) -/

/-- `prover_shared::CryptoEvidence`, with the `assertion_boxes` field the
guest program reads (the copy of `shared/src/lib.rs` under `src/` is stale:
it lacks that field although `main.rs` uses it).  Rust strings are carried as
their UTF-8 bytes. -/
structure CryptoEvidence : Type where
  asset_hash : Bytes
  has_manifest : Bool
  cose_sign1_bytes : Bytes
  cert_chain_der : List Bytes
  claim_cbor : Bytes
  assertion_boxes : List (Bytes × Bytes)
  official_trust_anchors_der : List Bytes
  curated_trust_anchors_der : List Bytes

/-- `prover_shared::PublicOutputs` as constructed by `main.rs` (including the
`cert_fingerprint` field, which the stale `shared/src/lib.rs` copy lacks). -/
structure PublicOutputs : Type where
  content_hash : Bytes
  has_c2pa : Bool
  trust_list_match : String
  validation_state : String
  digital_source_type : String
  issuer : String
  common_name : String
  software_agent : String
  signing_time : String
  cert_fingerprint : String
deriving DecidableEq

/-- `unsigned_outputs`: outputs for files with no (verified) C2PA manifest. -/
def unsigned_outputs (content_hash : Bytes) : PublicOutputs :=
  { content_hash := content_hash
    has_c2pa := false
    trust_list_match := ""
    validation_state := "None"
    digital_source_type := ""
    issuer := ""
    common_name := ""
    software_agent := ""
    signing_time := ""
    cert_fingerprint := "" }

/-- `determine_trust_level`: match the root certificate (last in chain)
against the official then the curated anchor list, by byte equality. -/
def determine_trust_level (cert_chain official_anchors curated_anchors : List Bytes) : String :=
  match cert_chain.getLast? with
  | none => "untrusted"
  | some root_der =>
    if official_anchors.contains root_der then "official"
    else if curated_anchors.contains root_der then "curated"
    else "untrusted"

/-- `extract_rdn_attr`: first attribute value with the given OID in an RDN
sequence, decoded with `String::from_utf8_lossy`. -/
def extract_rdn_attr (o : CryptoOracle) (name : List (List (String × Bytes)))
    (target_oid : String) : String :=
  match name.flatMap id |>.find? fun atv => atv.1 = target_oid with
  | some atv => o.utf8Lossy atv.2
  | none => ""

def OID_CN : String := "2.5.4.3"

def OID_ORG : String := "2.5.4.10"

/-- `extract_cert_names`: Organization from the issuer RDNs and Common Name
from the subject RDNs, falling back to the issuer CN when the subject CN is
empty. -/
def extract_cert_names (o : CryptoOracle) (cert : CertE) : String × String :=
  let issuer_org := extract_rdn_attr o cert.issuer OID_ORG
  let cn := extract_rdn_attr o cert.subject OID_CN
  let common_name := if cn = "" then extract_rdn_attr o cert.issuer OID_CN else cn
  (issuer_org, common_name)

/-- v1 fallback of `extract_claim_generator`: the text value under the
`claim_generator` key. -/
def claimGeneratorV1 (m : List (CVal × CVal)) : String :=
  ((m.find? fun kv => kv.1.asText = some "claim_generator").bind fun kv => kv.2.asText).getD ""

/-- `extract_claim_generator`: prefer C2PA v2 (`claim_generator_info.name`),
fall back to v1 (`claim_generator`). -/
def extract_claim_generator (de : Bytes → Option CVal) (claim_cbor : Bytes) : String :=
  if claim_cbor = [] then ""
  else
    match de claim_cbor with
    | none => ""
    | some claim =>
      match claim.asMap with
      | none => ""
      | some m =>
        match m.find? fun kv => kv.1.asText = some "claim_generator_info" with
        | some kv =>
          match (kv.2.asMap.bind fun mm =>
              mm.find? fun kv2 => kv2.1.asText = some "name").bind fun kv2 => kv2.2.asText with
          | some name => name
          | none => claimGeneratorV1 m
        | none => claimGeneratorV1 m

/-- The inner loop of `extract_from_actions` over the entries of one
`actions` array: each slot is filled by the first non-empty text value of its
key (an empty text value leaves the slot empty, like the Rust assignment),
and the loop breaks once both slots are filled. -/
def scanActions : List CVal → String → String → String × String
  | [], s, w => (s, w)
  | a :: rest, s, w =>
    match a.asMap with
    | none => scanActions rest s w
    | some action_map =>
      let s' := if s = "" then
          (((action_map.find? fun kv => kv.1.asText = some "digitalSourceType").bind
            fun kv => kv.2.asText).getD "")
        else s
      let w' := if w = "" then
          (((action_map.find? fun kv => kv.1.asText = some "when").bind
            fun kv => kv.2.asText).getD "")
        else w
      if s' ≠ "" ∧ w' ≠ "" then (s', w') else scanActions rest s' w'

/-- The `actions` array of one assertion box, when the box's label starts
with `c2pa.actions`, its payload decodes as a CBOR map and that map has an
`actions` array (the skip conditions of the outer loop of
`extract_from_actions`). -/
def actionsOfBox (de : Bytes → Option CVal) (box : Bytes × Bytes) : Option (List CVal) :=
  if ¬ (ascii "c2pa.actions").isPrefixOf box.1 then none
  else
    match de box.2 with
    | none => none
    | some cbor =>
      match cbor.asMap with
      | none => none
      | some m =>
        (m.find? fun kv => kv.1.asText = some "actions").bind fun kv => kv.2.asArray

/-- `extract_from_actions`: scan `c2pa.actions*` assertion boxes in order;
the first box that yields at least one non-empty value determines the
result. -/
def extract_from_actions (de : Bytes → Option CVal) :
    List (Bytes × Bytes) → String × String
  | [] => ("", "")
  | box :: rest =>
    match actionsOfBox de box with
    | none => extract_from_actions de rest
    | some actions =>
      let sw := scanActions actions "" ""
      if sw.1 ≠ "" ∨ sw.2 ≠ "" then sw else extract_from_actions de rest

/-- The COSE `Sig_structure1` array built by the guest:
`["Signature1", protected, external_aad = "", payload]`. -/
def sig_structure (protected_bytes payload : Bytes) : CVal :=
  .array [.text "Signature1", .bytes protected_bytes, .bytes [], .bytes payload]

/-- The ES256 gate: `matches!(alg, Some(Algorithm::Assigned(ES256)))`
(COSE algorithm -7). -/
def is_es256 (alg : Option AlgE) : Bool :=
  match alg with
  | some (.assigned n) => n = -7
  | _ => false

theorem is_es256_iff (alg : Option AlgE) :
    is_es256 alg = true ↔ alg = some (.assigned (-7)) := by
  rcases alg with _ | a
  · simp [is_es256]
  · rcases a with n | n | s <;> simp [is_es256]

/-- `verify_and_extract`: parse COSE, gate on ES256, parse the leaf
certificate and its P-256 key, rebuild `Sig_structure1` over the detached
`claim_cbor`, verify the ECDSA signature, and only then project the
metadata; every failure collapses to `unsigned_outputs`. -/
def verify_and_extract (o : CryptoOracle) (evidence : CryptoEvidence) : PublicOutputs :=
  match coseParse o evidence.cose_sign1_bytes with
  | none => unsigned_outputs evidence.asset_hash
  | some cose =>
    if ¬ is_es256 cose.protectedAlg then unsigned_outputs evidence.asset_hash
    else
      match evidence.cert_chain_der with
      | [] => unsigned_outputs evidence.asset_hash
      | leaf_der :: _ =>
        match o.certFromDer leaf_der with
        | none => unsigned_outputs evidence.asset_hash
        | some leaf_cert =>
          match o.keyFromSec1 leaf_cert.spkiSubjectPublicKey with
          | none => unsigned_outputs evidence.asset_hash
          | some verifying_key =>
            match o.cborSerialize
                (sig_structure (cose.protectedOriginal.getD []) evidence.claim_cbor) with
            | none => unsigned_outputs evidence.asset_hash
            | some tbs =>
              match o.sigFromSlice cose.signature with
              | none => unsigned_outputs evidence.asset_hash
              | some signature =>
                if ¬ o.ecdsaVerify verifying_key tbs signature then
                  unsigned_outputs evidence.asset_hash
                else
                  let trust_list_match := determine_trust_level evidence.cert_chain_der
                    evidence.official_trust_anchors_der evidence.curated_trust_anchors_der
                  let validation_state :=
                    if trust_list_match = "untrusted" then "SignatureOnly" else "Verified"
                  let names := extract_cert_names o leaf_cert
                  let software_agent := extract_claim_generator o.cborDecode evidence.claim_cbor
                  let dst_time := extract_from_actions o.cborDecode evidence.assertion_boxes
                  let cert_fingerprint := hex_encode (o.sha256 leaf_der)
                  { content_hash := evidence.asset_hash
                    has_c2pa := true
                    trust_list_match := trust_list_match
                    validation_state := validation_state
                    digital_source_type := dst_time.1
                    issuer := names.1
                    common_name := names.2
                    software_agent := software_agent
                    signing_time := dst_time.2
                    cert_fingerprint := cert_fingerprint }

/-- The guest `main`: verify when a manifest was found, otherwise commit the
unsigned outputs. -/
def guest_main (o : CryptoOracle) (evidence : CryptoEvidence) : PublicOutputs :=
  if evidence.has_manifest then verify_and_extract o evidence
  else unsigned_outputs evidence.asset_hash

/-! ## Host evidence extraction (`services/prover/script/src/jumbf_extract.rs`) -/

def PNG_SIG : Bytes := [0x89, 0x50, 0x4E, 0x47, 0x0D, 0x0A, 0x1A, 0x0A]

/-- The chunk loop of `extract_c2pa_from_png`: walk PNG chunks from `pos`,
concatenating the data of every `caBX` chunk. -/
def pngChunkScan (data : Bytes) (pos : Nat) : Bytes :=
  if h : pos + 12 ≤ data.length then
    let len := be32 data pos
    let data_end := pos + 8 + len
    if data_end + 4 > data.length then []
    else
      let rest := pngChunkScan data (data_end + 4)
      if (data.drop (pos + 4)).take 4 = ascii "caBX" then
        ((data.drop (pos + 8)).take len) ++ rest
      else rest
  else []
termination_by data.length - pos
decreasing_by simp_wf; omega

/-- `extract_c2pa_from_png`: concatenated `caBX` chunk data, or `None`. -/
def extract_c2pa_from_png (data : Bytes) : Option Bytes :=
  if ¬ PNG_SIG.isPrefixOf data then none
  else
    let jumbf := pngChunkScan data 8
    if jumbf.isEmpty then none else some jumbf

/-- One APP11 JUMBF fragment: box instance number `En`, packet sequence
number `Z`, and the fragment payload. -/
structure Frag : Type where
  en : Nat
  z : Nat
  payload : Bytes
deriving DecidableEq

/-- The segment-scanning loop of `extract_c2pa_from_jpeg`: collect the
`(En, Z, payload)` fragments of every APP11 segment whose payload starts
with `"JP"`, stopping at SOS. -/
def scanJpegSegments (data : Bytes) (pos : Nat) : List Frag :=
  if h : pos + 1 < data.length then
    if data.getD pos 0 ≠ 0xFF then scanJpegSegments data (pos + 1)
    else
      let marker := data.getD (pos + 1) 0
      if marker = 0xFF ∨ marker = 0x00 then scanJpegSegments data (pos + 2)
      else if marker = 0xDA then []
      else if marker = 0xD8 ∨ marker = 0xD9 ∨ (0xD0 ≤ marker ∧ marker ≤ 0xD7) then
        scanJpegSegments data (pos + 2)
      else if pos + 2 + 2 > data.length then []
      else
        let seg_len := be16 data (pos + 2)
        if h2 : seg_len < 2 ∨ pos + 2 + seg_len > data.length then []
        else
          let seg_data := (data.drop (pos + 2)).take seg_len
          let rest := scanJpegSegments data (pos + 2 + seg_len)
          if marker = 0xEB ∧ 10 ≤ seg_len then
            if (seg_data.drop 2).take 2 = ascii "JP" then
              { en := be16 seg_data 4
                z := ((seg_data.getD 6 0 * 256 + seg_data.getD 7 0) * 256 +
                  seg_data.getD 8 0) * 256 + seg_data.getD 9 0
                payload := seg_data.drop 10 } :: rest
            else rest
          else rest
  else []
termination_by data.length - pos
decreasing_by all_goals simp_wf; omega

/-- Lexicographic key order `(en, z)` used by the fragment sort
(`fragments.sort_by_key(|&(en, z, _)| (en, z))`). -/
def fragLex (a b : Frag) : Prop := a.en < b.en ∨ (a.en = b.en ∧ a.z ≤ b.z)

instance : DecidableRel fragLex := fun a b => by unfold fragLex; infer_instance

instance : IsTotal Frag fragLex := ⟨by intro a b; unfold fragLex; omega⟩

instance : IsTrans Frag fragLex := ⟨by intro a b c; unfold fragLex; omega⟩

/-- Order on fragments by packet sequence number only. -/
def fragZLe (a b : Frag) : Prop := a.z ≤ b.z

instance : DecidableRel fragZLe := fun a b => by unfold fragZLe; infer_instance

instance : IsTotal Frag fragZLe := ⟨by intro a b; unfold fragZLe; omega⟩

instance : IsTrans Frag fragZLe := ⟨by intro a b c; unfold fragZLe; omega⟩

/-- `extract_c2pa_from_jpeg`: collect APP11 `"JP"` fragments, sort them by
`(En, Z)` (Rust's `sort_by_key` is a stable sort, modelled by the stable
`insertionSort`), take the `En` of the first sorted fragment, and
concatenate the payloads with that `En`. -/
def extract_c2pa_from_jpeg (data : Bytes) : Option Bytes :=
  if ¬ [0xFF, 0xD8, 0xFF].isPrefixOf data then none
  else if (scanJpegSegments data 2).isEmpty then none
  else
    match (scanJpegSegments data 2).insertionSort fragLex with
    | [] => none
    | f0 :: _ =>
      if ((((scanJpegSegments data 2).insertionSort fragLex).filter
          fun f => f.en == f0.en).flatMap Frag.payload).isEmpty then none
      else
        some ((((scanJpegSegments data 2).insertionSort fragLex).filter
          fun f => f.en == f0.en).flatMap Frag.payload)

def C2PA_UUID : Bytes :=
  [0xd8, 0xfe, 0xc3, 0xd6, 0x1b, 0x0e, 0x48, 0x3c, 0x92, 0x97, 0x58, 0x28, 0x87, 0x7e, 0xc4, 0x81]

/-- `is_bmff`: the file starts with a box whose type is `ftyp` at offset 4. -/
def is_bmff (data : Bytes) : Bool :=
  decide (8 ≤ data.length ∧ (data.drop 4).take 4 = ascii "ftyp")

/-- The box loop of `extract_c2pa_from_bmff`.  The source's `continue`
statements inside the `uuid` branch re-enter the `while` loop without
advancing `pos`, i.e. they loop forever on such (malformed) boxes; the model
maps those branches to `none`.  No claim depends on them. -/
def be64 (d : Bytes) (i : Nat) : Nat := be32 d i * 2 ^ 32 + be32 d (i + 4)

/-- Header size of a BMFF box: 16 bytes with an extended size, else 8. -/
def bmffHeaderSize (size : Nat) : Nat := if size = 1 then 16 else 8

/-- Total size of a BMFF box at `pos`: the extended 64-bit size when
`size == 1`, the rest of the file when `size == 0`, else `size` itself. -/
def bmffBoxSize (data : Bytes) (pos size : Nat) : Nat :=
  if size = 1 then be64 data (pos + 8)
  else if size = 0 then data.length - pos
  else size

theorem bmffHeaderSize_ge (size : Nat) : 8 ≤ bmffHeaderSize size := by
  unfold bmffHeaderSize; split <;> omega

def bmffBoxScan (data : Bytes) (pos : Nat) : Option Bytes :=
  if h : pos + 8 ≤ data.length then
    let size := be32 data pos
    if size = 1 ∧ pos + 16 > data.length then none
    else
      let header_size := bmffHeaderSize size
      let box_size := bmffBoxSize data pos size
      if h2 : box_size < header_size ∨ pos + box_size > data.length then none
      else
        let next := bmffBoxScan data (pos + box_size)
        if (data.drop (pos + 4)).take 4 = ascii "uuid" then
          let content := (data.drop (pos + header_size)).take (box_size - header_size)
          if 16 ≤ content.length ∧ content.take 16 = C2PA_UUID then
            let inner := content.drop 16
            if inner.length < 4 then none
            else
              match (inner.drop 4).findIdx? (· == 0) with
              | none => none
              | some null_pos =>
                let purpose := (inner.drop 4).take null_pos
                if ¬ isValidUtf8 purpose then none
                else if purpose ≠ ascii "manifest" ∧ purpose ≠ ascii "original" then none
                else
                  let cursor := 4 + null_pos + 1
                  if cursor + 8 > inner.length then none
                  else some (inner.drop (cursor + 8))
          else next
        else next
  else none
termination_by data.length - pos
decreasing_by
  all_goals simp_wf
  all_goals have hh := bmffHeaderSize_ge size
  all_goals unfold_let size header_size box_size at h2 hh ⊢
  all_goals omega

/-- `extract_c2pa_from_bmff`: first C2PA `uuid` box payload. -/
def extract_c2pa_from_bmff (data : Bytes) : Option Bytes := bmffBoxScan data 0

/-! ### JUMBF / ISO BMFF box walking -/

/-- `BmffBox`: a parsed box (type bytes and content after the header). -/
structure BmffBoxE : Type where
  box_type : Bytes
  data : Bytes
deriving DecidableEq

/-- The loop of `parse_boxes` from an absolute position. -/
def parseBoxesAux (data : Bytes) (pos : Nat) : List BmffBoxE :=
  if h : pos + 8 ≤ data.length then
    let size := be32 data pos
    if h2 : size < 8 ∨ pos + size > data.length then []
    else
      { box_type := (data.drop (pos + 4)).take 4
        data := (data.drop (pos + 8)).take (size - 8) } :: parseBoxesAux data (pos + size)
  else []
termination_by data.length - pos
decreasing_by simp_wf; omega

/-- `parse_boxes`: parse consecutive ISO BMFF boxes from a byte slice. -/
def parse_boxes (data : Bytes) : List BmffBoxE := parseBoxesAux data 0

/-- `parse_jumd_label`: the NUL-terminated label of a JUMD box, present when
bit 1 of the toggles byte is set; the label bytes must be valid UTF-8. -/
def parse_jumd_label (data : Bytes) : Option Bytes :=
  if data.length < 17 then none
  else
    let toggles := data.getD 16 0
    if toggles / 2 % 2 = 0 then none
    else
      match (data.drop 17).findIdx? (· == 0) with
      | none => none
      | some null_pos =>
        let lbl := (data.drop 17).take null_pos
        if isValidUtf8 lbl then some lbl else none

/-- `skip_bfdb_header`: skip the toggle byte and the optional NUL-terminated
media-type and file-name strings of a `bfdb` box. -/
def skip_bfdb_header (data : Bytes) : Bytes :=
  match data with
  | [] => []
  | toggle :: _ =>
    let pos1 : Nat := 1
    let pos2 :=
      if toggle % 2 ≠ 0 then
        match (data.drop pos1).findIdx? (· == 0) with
        | some null_pos => pos1 + null_pos + 1
        | none => pos1
      else pos1
    let pos3 :=
      if toggle / 2 % 2 ≠ 0 then
        match (data.drop pos2).findIdx? (· == 0) with
        | some null_pos => pos2 + null_pos + 1
        | none => pos2
      else pos2
    data.drop pos3

/-- `extract_embedded_content`: strip the `bfdb` header when present. -/
def extract_embedded_content (content_box : BmffBoxE) : Bytes :=
  if content_box.box_type = ascii "bfdb" then skip_bfdb_header content_box.data
  else content_box.data

/-- The label of a child superbox: its first box must be `jumd` and carry a
label. -/
def childLabel (inner : List BmffBoxE) : Option Bytes :=
  (inner.head?.filter fun b => b.box_type == ascii "jumd").bind fun b => parse_jumd_label b.data

/-- The claim/signature loop of `extract_manifest_parts` over the active
manifest's children (later matches overwrite earlier ones, as in the Rust
loop's repeated assignment). -/
def claimSigOfChildren (active_children : List BmffBoxE) : Option Bytes × Option Bytes :=
  active_children.foldl
    (fun acc child =>
      if child.box_type ≠ ascii "jumb" then acc
      else
        let inner := parse_boxes child.data
        match childLabel inner with
        | some l =>
          if (ascii "c2pa.claim").isPrefixOf l then
            match inner.get? 1 with
            | some content_box => (some content_box.data, acc.2)
            | none => acc
          else if (ascii "c2pa.signature").isPrefixOf l then
            match inner.get? 1 with
            | some content_box => (acc.1, some (extract_embedded_content content_box))
            | none => acc
          else acc
        | none => acc)
    (none, none)

/-- `extract_assertions_from_store`: one (label, content) pair per labelled
`jumb` child of an assertion store. -/
def extract_assertions_from_store (children : List BmffBoxE) : List (Bytes × Bytes) :=
  children.foldl
    (fun out child =>
      if child.box_type ≠ ascii "jumb" then out
      else
        let inner := parse_boxes child.data
        match childLabel inner with
        | some al =>
          match inner.get? 1 with
          | some content_box => out ++ [(al, extract_embedded_content content_box)]
          | none => out
        | none => out)
    []

/-- The assertions contributed by one manifest: every `c2pa.assertions`
child's store, in order. -/
def manifestAssertions (manifest : BmffBoxE) : List (Bytes × Bytes) :=
  (parse_boxes manifest.data).foldl
    (fun acc child =>
      if child.box_type ≠ ascii "jumb" then acc
      else
        let inner := parse_boxes child.data
        match childLabel inner with
        | some l =>
          if l = ascii "c2pa.assertions" then
            acc ++ extract_assertions_from_store (inner.drop 1)
          else acc
        | none => acc)
    []

/-- `extract_manifest_parts`: claim CBOR and COSE envelope from the active
(last) manifest, assertions from all manifests. -/
def extract_manifest_parts (jumbf : Bytes) : Option (Bytes × Bytes × List (Bytes × Bytes)) :=
  let top_boxes := parse_boxes jumbf
  match top_boxes.find? fun b => b.box_type == ascii "jumb" with
  | none => none
  | some store =>
    let store_children := parse_boxes store.data
    let manifests := store_children.filter fun b => b.box_type == ascii "jumb"
    match manifests.getLast? with
    | none => none
    | some active =>
      let cs := claimSigOfChildren (parse_boxes active.data)
      let assertions := manifests.foldl (fun acc m => acc ++ manifestAssertions m) []
      match cs.1, cs.2 with
      | some claim, some sig => some (claim, sig, assertions)
      | _, _ => none

/-- `extract_cert_chain_from_cose`: the `x5chain` header parameter (label 33
or text `"x5chain"`), unprotected header first; `none` models the COSE parse
error (whose caller substitutes the empty chain). -/
def extract_cert_chain_from_cose (o : CryptoOracle) (cose_bytes : Bytes) :
    Option (List Bytes) :=
  match coseParse o cose_bytes with
  | none => none
  | some cose =>
    let p : LabelE × CVal → Bool := fun kv =>
      kv.1 == LabelE.int 33 || kv.1 == LabelE.text "x5chain"
    match (cose.unprotectedRest.find? p).orElse fun _ => cose.protectedRest.find? p with
    | none => some []
    | some kv =>
      match kv.2 with
      | .bytes der => some [der]
      | .array arr =>
        some (arr.filterMap fun v => match v with | .bytes der => some der | _ => none)
      | _ => some []

/-- `extract_crypto_evidence`: dissect the media by magic bytes, walk the
JUMBF, and assemble the `CryptoEvidence` handed to the guest.  The trust
anchor directories are abstracted into the two DER lists they load. -/
def extract_crypto_evidence (o : CryptoOracle) (file_bytes : Bytes)
    (official curated : List Bytes) : CryptoEvidence :=
  let asset_hash := o.sha256 file_bytes
  let jumbf_data :=
    if PNG_SIG.isPrefixOf file_bytes then extract_c2pa_from_png file_bytes
    else if [0xFF, 0xD8, 0xFF].isPrefixOf file_bytes then extract_c2pa_from_jpeg file_bytes
    else if is_bmff file_bytes then extract_c2pa_from_bmff file_bytes
    else none
  let parts := jumbf_data.bind extract_manifest_parts
  match parts with
  | some (claim, sig, assertions) =>
    { asset_hash := asset_hash
      has_manifest := true
      cose_sign1_bytes := sig
      cert_chain_der := (extract_cert_chain_from_cose o sig).getD []
      claim_cbor := claim
      assertion_boxes := assertions
      official_trust_anchors_der := official
      curated_trust_anchors_der := curated }
  | none =>
    { asset_hash := asset_hash
      has_manifest := false
      cose_sign1_bytes := []
      cert_chain_der := []
      claim_cbor := []
      assertion_boxes := []
      official_trust_anchors_der := official
      curated_trust_anchors_der := curated }

/-! ## The trusted verifier (`services/verifier/src/lib.rs`) -/

/-- `serde_json::Value`. -/
inductive JValue : Type where
  | null : JValue
  | bool : Bool → JValue
  | num : Int → JValue
  | str : String → JValue
  | arr : List JValue → JValue
  | obj : List (String × JValue) → JValue

/-- `Value::get` on an object key (`None` for non-objects / absent keys). -/
def JValue.get (v : JValue) (key : String) : Option JValue :=
  match v with
  | .obj fields => (fields.find? fun kv => kv.1 == key).map fun kv => kv.2
  | _ => none

/-- `Value::as_str`. -/
def JValue.asStr : JValue → Option String
  | .str s => some s
  | _ => none

/-- `Value::as_array`. -/
def JValue.asArr : JValue → Option (List JValue)
  | .arr a => some a
  | _ => none

/-- `Value::as_object` (the entries of a JSON object, in map order). -/
def JValue.asObj : JValue → Option (List (String × JValue))
  | .obj fields => some fields
  | _ => none

/-- The parts of a `c2pa::Reader` the verifier reads: whether
`active_manifest()` is `Some`, the `Debug` rendering of
`validation_state()`, the codes of `validation_status()`, and the manifest
store JSON (`reader.json()` composed with `serde_json::from_str`). -/
structure ReaderE : Type where
  activeManifestSome : Bool
  validationStateDebug : String
  validationStatusCodes : Option (List String)
  json : JValue

/-- `is_trusted`: `signingCredential.untrusted` absent from the validation
statuses. -/
def is_trusted (r : ReaderE) : Bool :=
  match r.validationStatusCodes with
  | some statuses => ! statuses.contains "signingCredential.untrusted"
  | none => true

/-- `resolve_trust`: try the official list, then the curated list, then no
trust list.  The reader oracle models `try_read` for this file as a function
of the PEM bundle (`none` = c2pa-rs could not read the file; the
settings-construction error path of `try_read` is not modelled). -/
def resolve_trust (reader : String → Option ReaderE) (official_pem curated_pem : String) :
    Option (ReaderE × String) :=
  let fallback : Option (ReaderE × String) :=
    if curated_pem ≠ "" then
      match reader curated_pem with
      | none => none
      | some r => if is_trusted r then some (r, "curated") else some (r, "untrusted")
    else
      match reader "" with
      | none => none
      | some r => some (r, "untrusted")
  if official_pem ≠ "" then
    match reader official_pem with
    | none => none
    | some r => if is_trusted r then some (r, "official") else fallback
  else fallback

/-- `extract_cn`: the `CN=` component of an X.509 DN string. -/
def extract_cn (issuer : String) : Option String :=
  (((issuer.splitOn ",").map String.trim).find? fun s => s.startsWith "CN=").map
    fun s => s.drop 3

/-- The `Props` struct of the verifier. -/
structure Props : Type where
  title : Option String := none
  format : Option String := none
  digital_source_type : Option String := none
  claim_generator : Option String := none
  software_agent : Option String := none
  issuer : Option String := none
  common_name : Option String := none
  signing_time : Option String := none
  sig_algorithm : Option String := none
  actions : Option JValue := none
  ingredients : Option JValue := none

/-- State of the assertion scan in `extract_props`: the mutable
`digital_source_type`, `software_agent` and `actions` slots. -/
structure AssertScanState : Type where
  digital_source_type : Option String := none
  software_agent : Option String := none
  actions : Option JValue := none

/-- One action entry of the `c2pa.actions` scan in `extract_props`. -/
def scanActionEntry (st : AssertScanState) (act : JValue) : AssertScanState :=
  let software_agent :=
    if st.software_agent.isNone then
      (act.get "softwareAgent").bind fun v =>
        (v.asStr).orElse fun _ => (v.get "name").bind JValue.asStr
    else st.software_agent
  let dst1 :=
    if st.digital_source_type.isNone then (act.get "digitalSourceType").bind JValue.asStr
    else st.digital_source_type
  let dst2 :=
    match act.get "parameters" with
    | some params =>
      if dst1.isNone then (params.get "com.adobe.digitalSourceType").bind JValue.asStr
      else dst1
    | none => dst1
  { digital_source_type := dst2, software_agent := software_agent, actions := st.actions }

/-- One assertion entry of the scan in `extract_props` (the
`stds.schema-org.CreativeWork` and `c2pa.actions*` branches). -/
def scanAssertEntry (st : AssertScanState) (a : JValue) : AssertScanState :=
  let label := ((a.get "label").bind JValue.asStr).getD ""
  let data := a.get "data"
  if label = "stds.schema-org.CreativeWork" then
    match data with
    | some d => { st with digital_source_type := (d.get "digitalSourceType").bind JValue.asStr }
    | none => st
  else if label.startsWith "c2pa.actions" then
    match data with
    | some d =>
      let st1 := { st with actions := d.get "actions" }
      match (d.get "actions").bind JValue.asArr with
      | some action_arr => action_arr.foldl scanActionEntry st1
      | none => st1
    | none => st
  else st

/-- One action entry of the ingredient-manifest fallback scan in
`extract_props` (only `c2pa.created` actions are considered). -/
def fallbackActionEntry (st : Option String × Option String) (act : JValue) :
    Option String × Option String :=
  if (act.get "action").bind JValue.asStr ≠ some "c2pa.created" then st
  else
    let dst :=
      if st.1.isNone then (act.get "digitalSourceType").bind JValue.asStr else st.1
    let sa :=
      if st.2.isNone then
        (act.get "softwareAgent").bind fun v =>
          (v.asStr).orElse fun _ => (v.get "name").bind JValue.asStr
      else st.2
    (dst, sa)

/-- One assertion of the ingredient-manifest fallback scan. -/
def fallbackAssertEntry (st : Option String × Option String) (a : JValue) :
    Option String × Option String :=
  let label := ((a.get "label").bind JValue.asStr).getD ""
  if ¬ label.startsWith "c2pa.actions" then st
  else
    match ((a.get "data").bind fun d => d.get "actions").bind JValue.asArr with
    | some action_arr => action_arr.foldl fallbackActionEntry st
    | none => st

/-- `extract_props`: pull flat provenance properties from the manifest store
JSON. -/
def extract_props (json : JValue) : Props :=
  let active_id := ((json.get "active_manifest").bind JValue.asStr).getD ""
  match (json.get "manifests").bind fun m => m.get active_id with
  | none => {}
  | some manifest =>
    let title := (manifest.get "title").bind JValue.asStr
    let format := (manifest.get "format").bind JValue.asStr
    let claim_generator := (manifest.get "claim_generator").bind JValue.asStr
    let sig := manifest.get "signature_info"
    let issuer := (sig.bind fun s => s.get "issuer").bind JValue.asStr
    let common_name :=
      ((sig.bind fun s => s.get "common_name").bind JValue.asStr).orElse fun _ =>
        issuer.bind extract_cn
    let signing_time := (sig.bind fun s => s.get "time").bind JValue.asStr
    let sig_algorithm := (sig.bind fun s => s.get "alg").bind JValue.asStr
    let assertions := (manifest.get "assertions").bind JValue.asArr
    let scanned :=
      match assertions with
      | some arr => arr.foldl scanAssertEntry {}
      | none => ({} : AssertScanState)
    let ingredients := (manifest.get "ingredients").map id
    let fb :=
      if scanned.digital_source_type.isNone ∨ scanned.software_agent.isNone then
        match (json.get "manifests").bind JValue.asObj with
        | some manifests =>
          manifests.foldl
            (fun st m =>
              match (m.2.get "assertions").bind JValue.asArr with
              | some asserts => asserts.foldl fallbackAssertEntry st
              | none => st)
            (scanned.digital_source_type, scanned.software_agent)
        | none => (scanned.digital_source_type, scanned.software_agent)
      else (scanned.digital_source_type, scanned.software_agent)
    { title := title
      format := format
      digital_source_type := fb.1
      claim_generator := claim_generator
      software_agent := fb.2
      issuer := issuer
      common_name := common_name
      signing_time := signing_time
      sig_algorithm := sig_algorithm
      actions := scanned.actions
      ingredients := ingredients }

/-- `VerifyOutput` of the trusted verifier. -/
structure VerifyOutputE : Type where
  path : String
  content_hash : Option String
  has_c2pa : Bool
  trust_list_match : Option String
  validation_state : Option String
  validation_error_count : Option Nat
  validation_codes : Option (List String)
  title : Option String
  format : Option String
  digital_source_type : Option String
  claim_generator : Option String
  software_agent : Option String
  issuer : Option String
  common_name : Option String
  signing_time : Option String
  sig_algorithm : Option String
  actions : Option JValue
  ingredients : Option JValue
  manifest_store : Option JValue
  error : Option String

/-- `VerifyOutput::unsigned`. -/
def VerifyOutputE.unsigned (path : String) (content_hash : Option String) : VerifyOutputE :=
  { path := path
    content_hash := content_hash
    has_c2pa := false
    trust_list_match := none
    validation_state := none
    validation_error_count := none
    validation_codes := none
    title := none
    format := none
    digital_source_type := none
    claim_generator := none
    software_agent := none
    issuer := none
    common_name := none
    signing_time := none
    sig_algorithm := none
    actions := none
    ingredients := none
    manifest_store := none
    error := none }

/-- `verifier::verify`: the trusted-verifier profile.  File access, PEM
directory loading and c2pa-rs are abstracted: the file's bytes, the two
concatenated PEM bundles and the reader oracle are inputs. -/
def verifier_verify (sha : Bytes → Bytes) (reader : String → Option ReaderE)
    (official_pem curated_pem : String) (path : String) (file_bytes : Bytes) :
    VerifyOutputE :=
  let content_hash := some (hex_encode (sha file_bytes))
  match resolve_trust reader official_pem curated_pem with
  | none => VerifyOutputE.unsigned path content_hash
  | some rt =>
    let r := rt.1
    let has_c2pa := r.activeManifestSome
    let validation_state := some r.validationStateDebug
    let validation_error_count := r.validationStatusCodes.map List.length
    let validation_codes := r.validationStatusCodes
    let manifest_store := if has_c2pa then some r.json else none
    let props := (manifest_store.map extract_props).getD {}
    { path := path
      content_hash := content_hash
      has_c2pa := has_c2pa
      trust_list_match := some rt.2
      validation_state := validation_state
      validation_error_count := validation_error_count
      validation_codes := validation_codes
      title := props.title
      format := props.format
      digital_source_type := props.digital_source_type
      claim_generator := props.claim_generator
      software_agent := props.software_agent
      issuer := props.issuer
      common_name := props.common_name
      signing_time := props.signing_time
      sig_algorithm := props.sig_algorithm
      actions := props.actions
      ingredients := props.ingredients
      manifest_store := manifest_store
      error := none }

/-! ## The on-chain attestation program
(`services/provenance_attestation/programs/provenance_attestation/src`) -/

/-- `ProvenanceError` (errors.rs). -/
inductive ProvError : Type where
  | proofVerificationFailed
  | invalidPublicOutputs
  | stringTooLong
  | contentHashMismatch
  | unauthorized
  | domainEmpty
  | invalidWalletSigVerify
  | walletPubkeyMismatch
deriving DecidableEq

/-- Outcome of an instruction: either the program's own error, or the
`already in use` failure raised by the Anchor `init` account constraint when
the attestation PDA for this `content_hash` already exists. -/
inductive SubmitError : Type where
  | accountInUse
  | program : ProvError → SubmitError
deriving DecidableEq

/-- `ParsedOutputs` (lib.rs): the on-chain mirror of the guest's
`PublicOutputs`, with strings as UTF-8 bytes. -/
structure ParsedOutputs : Type where
  content_hash : Bytes
  has_c2pa : Bool
  trust_list_match : Bytes
  validation_state : Bytes
  digital_source_type : Bytes
  issuer : Bytes
  common_name : Bytes
  software_agent : Bytes
  signing_time : Bytes
  cert_fingerprint : Bytes
deriving DecidableEq

/-- `read_bincode_string`: u64 LE length prefixed UTF-8 bytes at `cursor`;
returns the string bytes and the new cursor. -/
def read_bincode_string (data : Bytes) (cursor : Nat) : Option (Bytes × Nat) :=
  if data.length < cursor + 8 then none
  else
    let len := fromLe8 ((data.drop cursor).take 8)
    let cursor2 := cursor + 8
    if data.length < cursor2 + len then none
    else
      let s := (data.drop cursor2).take len
      if isValidUtf8 s then some (s, cursor2 + len) else none

/-- `parse_public_outputs`: 32 raw bytes, 1 boolean byte, then 8
length-prefixed strings. -/
def parse_public_outputs (data : Bytes) : Option ParsedOutputs :=
  if data.length < 32 then none
  else
    let content_hash := data.take 32
    if data.length < 32 + 1 then none
    else
      let has_c2pa := data.getD 32 0 != 0
      match read_bincode_string data 33 with
      | none => none
      | some (trust_list_match, c1) =>
        match read_bincode_string data c1 with
        | none => none
        | some (validation_state, c2) =>
          match read_bincode_string data c2 with
          | none => none
          | some (digital_source_type, c3) =>
            match read_bincode_string data c3 with
            | none => none
            | some (issuer, c4) =>
              match read_bincode_string data c4 with
              | none => none
              | some (common_name, c5) =>
                match read_bincode_string data c5 with
                | none => none
                | some (software_agent, c6) =>
                  match read_bincode_string data c6 with
                  | none => none
                  | some (signing_time, c7) =>
                    match read_bincode_string data c7 with
                    | none => none
                    | some (cert_fingerprint, _) =>
                      some { content_hash := content_hash
                             has_c2pa := has_c2pa
                             trust_list_match := trust_list_match
                             validation_state := validation_state
                             digital_source_type := digital_source_type
                             issuer := issuer
                             common_name := common_name
                             software_agent := software_agent
                             signing_time := signing_time
                             cert_fingerprint := cert_fingerprint }

/-- `Attestation::MAX_STRING_LEN` (state.rs). -/
def MAX_STRING_LEN : Nat := 128

/-- The on-chain `Attestation` account, with every field the instruction
handlers in lib.rs assign (the copy of state.rs under `src/` is stale: it
lacks the `proof_type`, identity and versioning fields that lib.rs
stores). -/
structure Attestation : Type where
  content_hash : Bytes
  has_c2pa : Bool
  trust_list_match : Bytes
  validation_state : Bytes
  digital_source_type : Bytes
  issuer : Bytes
  common_name : Bytes
  software_agent : Bytes
  signing_time : Bytes
  cert_fingerprint : Bytes
  submitted_by : Bytes
  timestamp : Int
  bump : Nat
  proof_type : Bytes
  email_domain : Bytes
  email_hash : Bytes
  wallet : Bytes
  verifier_version : Bytes
  trust_bundle_hash : Bytes
  wallet_sig : Bytes
deriving DecidableEq

/-- The attestation PDA store.  An attestation account's address is the PDA
of the fixed seed `b"attestation"` and the `content_hash` (state.rs), so the
store is keyed by `content_hash`; Anchor's `init` constraint fails when the
account already exists. -/
abbrev Ledger : Type := List (Bytes × Attestation)

/-- Account lookup by content hash. -/
def ledger_lookup (l : Ledger) (content_hash : Bytes) : Option Attestation :=
  (l.find? fun e => e.1 == content_hash).map fun e => e.2

/-- The all-zero `Pubkey::default()`. -/
def default_pubkey : Bytes := List.replicate 32 0

/-- The sequence of `require!(x.len() <= MAX_STRING_LEN, StringTooLong)`
checks of lib.rs: they all raise the same error, so they are modelled as one
conjunction over the checked fields, in order. -/
def strings_within_bounds (fields : List Bytes) : Bool :=
  fields.all fun f => f.length ≤ MAX_STRING_LEN

/-- `submit_proof`: Anchor `init` exclusivity, Groth16 proof verification
 (`proof_ok` oracle for `sp1_solana::verify_proof`), `parse_public_outputs`,
content-hash equality, string bounds, then the stores.  The
`verify_wallet_sig` runtime introspection is abstracted by its outcome
`wallet_sig_check`, consulted only when `wallet` is not the default key. -/
def submit_proof (ledger : Ledger) (proof_ok : Bool) (public_inputs : Bytes)
    (content_hash : Bytes) (email_domain : Bytes) (email_hash : Bytes) (wallet : Bytes)
    (verifier_version : Bytes) (trust_bundle_hash : Bytes) (submitter : Bytes) (now : Int)
    (bump : Nat) (wallet_sig_check : Except ProvError Bytes) : Except SubmitError Ledger :=
  if (ledger_lookup ledger content_hash).isSome then .error .accountInUse
  else if ¬ proof_ok then .error (.program .proofVerificationFailed)
  else
    match parse_public_outputs public_inputs with
    | none => .error (.program .invalidPublicOutputs)
    | some outputs =>
      if outputs.content_hash ≠ content_hash then .error (.program .contentHashMismatch)
      else if ¬ strings_within_bounds [outputs.trust_list_match, outputs.validation_state,
          outputs.digital_source_type, outputs.issuer, outputs.common_name,
          outputs.software_agent, outputs.signing_time, outputs.cert_fingerprint,
          email_domain, verifier_version, trust_bundle_hash] then
        .error (.program .stringTooLong)
      else
        match (if wallet ≠ default_pubkey then wallet_sig_check
               else .ok (List.replicate 64 0) : Except ProvError Bytes) with
        | .error e => .error (.program e)
        | .ok sig =>
          .ok ((content_hash,
            { content_hash := outputs.content_hash
              has_c2pa := outputs.has_c2pa
              trust_list_match := outputs.trust_list_match
              validation_state := outputs.validation_state
              digital_source_type := outputs.digital_source_type
              issuer := outputs.issuer
              common_name := outputs.common_name
              software_agent := outputs.software_agent
              signing_time := outputs.signing_time
              cert_fingerprint := outputs.cert_fingerprint
              submitted_by := submitter
              timestamp := now
              bump := bump
              proof_type := ascii "zk_groth16"
              email_domain := email_domain
              email_hash := email_hash
              wallet := wallet
              verifier_version := verifier_version
              trust_bundle_hash := trust_bundle_hash
              wallet_sig := sig }) :: ledger)

/-- `submit_attestation`: authority gate (the `AUTHORITY` constant lives in
constants.rs, which is not under `src/`; it is abstracted as
`expected_authority`), string bounds, then the stores. -/
def submit_attestation (ledger : Ledger) (expected_authority : Bytes)
    (content_hash : Bytes) (has_c2pa : Bool) (trust_list_match validation_state
    digital_source_type issuer common_name software_agent signing_time cert_fingerprint
    email_domain : Bytes) (email_hash : Bytes) (wallet : Bytes)
    (verifier_version trust_bundle_hash : Bytes) (authority : Bytes) (now : Int)
    (bump : Nat) (wallet_sig_check : Except ProvError Bytes) : Except SubmitError Ledger :=
  if (ledger_lookup ledger content_hash).isSome then .error .accountInUse
  else if authority ≠ expected_authority then .error (.program .unauthorized)
  else if ¬ strings_within_bounds [trust_list_match, validation_state, digital_source_type,
      issuer, common_name, software_agent, signing_time, cert_fingerprint, email_domain,
      verifier_version, trust_bundle_hash] then
    .error (.program .stringTooLong)
  else
    match (if wallet ≠ default_pubkey then wallet_sig_check
           else .ok (List.replicate 64 0) : Except ProvError Bytes) with
    | .error e => .error (.program e)
    | .ok sig =>
      .ok ((content_hash,
        { content_hash := content_hash
          has_c2pa := has_c2pa
          trust_list_match := trust_list_match
          validation_state := validation_state
          digital_source_type := digital_source_type
          issuer := issuer
          common_name := common_name
          software_agent := software_agent
          signing_time := signing_time
          cert_fingerprint := cert_fingerprint
          submitted_by := authority
          timestamp := now
          bump := bump
          proof_type := ascii "trusted_verifier"
          email_domain := email_domain
          email_hash := email_hash
          wallet := wallet
          verifier_version := verifier_version
          trust_bundle_hash := trust_bundle_hash
          wallet_sig := sig }) :: ledger)

/-- Ledgers reachable from the empty store by the two write instructions. -/
inductive Reach : Ledger → Prop where
  | nil : Reach []
  | step_proof {L L' : Ledger} (proof_ok : Bool) (public_inputs content_hash email_domain
      email_hash wallet verifier_version trust_bundle_hash submitter : Bytes) (now : Int)
      (bump : Nat) (wallet_sig_check : Except ProvError Bytes) :
      Reach L →
      submit_proof L proof_ok public_inputs content_hash email_domain email_hash wallet
        verifier_version trust_bundle_hash submitter now bump wallet_sig_check = .ok L' →
      Reach L'
  | step_attest {L L' : Ledger} (expected_authority content_hash : Bytes) (has_c2pa : Bool)
      (trust_list_match validation_state digital_source_type issuer common_name
      software_agent signing_time cert_fingerprint email_domain email_hash wallet
      verifier_version trust_bundle_hash authority : Bytes) (now : Int) (bump : Nat)
      (wallet_sig_check : Except ProvError Bytes) :
      Reach L →
      submit_attestation L expected_authority content_hash has_c2pa trust_list_match
        validation_state digital_source_type issuer common_name software_agent signing_time
        cert_fingerprint email_domain email_hash wallet verifier_version trust_bundle_hash
        authority now bump wallet_sig_check = .ok L' →
      Reach L'

/-! ## Specification-side definitions (stated from the claims' wording) -/

/-- The lowest box instance number `En` among a fragment list (the claim's
"lowest En present in the file"). -/
def lowest_en : List Frag → Nat
  | [] => 0
  | [f] => f.en
  | f :: g :: rest => min f.en (lowest_en (g :: rest))

/-- C8's description of JPEG reassembly: concatenate, in ascending packet
sequence number order (stable), the payloads of exactly the fragments whose
`En` is the lowest `En` present; the scan itself and the emptiness fallbacks
are shared with the code model. -/
def jpeg_spec (data : Bytes) : Option Bytes :=
  if ¬ [0xFF, 0xD8, 0xFF].isPrefixOf data then none
  else if (scanJpegSegments data 2).isEmpty then none
  else
    if ((((scanJpegSegments data 2).filter
        fun f => f.en == lowest_en (scanJpegSegments data 2)).insertionSort
        fragZLe).flatMap Frag.payload).isEmpty then none
    else
      some ((((scanJpegSegments data 2).filter
        fun f => f.en == lowest_en (scanJpegSegments data 2)).insertionSort
        fragZLe).flatMap Frag.payload)

/-- All decoded action entries of the `c2pa.actions*` assertion boxes, in
box order (the stream over which C9's "first non-empty value encountered"
quantifies). -/
def matching_actions (de : Bytes → Option CVal) (boxes : List (Bytes × Bytes)) :
    List CVal :=
  (boxes.filterMap (actionsOfBox de)).flatMap id

/-- First non-empty text value of `key` among a stream of action entries
(entries that are not maps, lack the key, or hold a non-text or empty value
contribute nothing). -/
def first_nonempty_value (key : String) : List CVal → String
  | [] => ""
  | a :: rest =>
    let v := ((a.asMap.bind fun m =>
      m.find? fun kv => kv.1.asText = some key).bind fun kv => kv.2.asText).getD ""
    if v ≠ "" then v else first_nonempty_value key rest

/-- C9 as claimed: each of the two values is the first non-empty one in the
whole stream of matching action entries. -/
def c9_spec (de : Bytes → Option CVal) (boxes : List (Bytes × Bytes)) : String × String :=
  (first_nonempty_value "digitalSourceType" (matching_actions de boxes),
   first_nonempty_value "when" (matching_actions de boxes))

/-- C9 as amended: the result is the per-box scan of the first
`c2pa.actions*` box (with a decodable map and an `actions` array) whose scan
yields at least one non-empty value; `("", "")` if no box yields one. -/
def c9_amended (de : Bytes → Option CVal) (boxes : List (Bytes × Bytes)) :
    String × String :=
  (((boxes.filterMap (actionsOfBox de)).map fun acts => scanActions acts "" "").find?
    fun sw => !(sw == ("", ""))).getD ("", "")

/-- C2's field-wise comparison of the two profiles' outputs.  The trusted
verifier's optional fields are decoded with absence as the empty string (the
most favourable convention), and since its `VerifyOutput` has no
`cert_fingerprint` field at all, bit-identity requires the zk fingerprint to
be empty. -/
def outputs_match (zk : PublicOutputs) (t : VerifyOutputE) : Prop :=
  t.content_hash.getD "" = hex_encode zk.content_hash ∧
  t.has_c2pa = zk.has_c2pa ∧
  t.trust_list_match.getD "" = zk.trust_list_match ∧
  t.validation_state.getD "" = zk.validation_state ∧
  t.digital_source_type.getD "" = zk.digital_source_type ∧
  t.issuer.getD "" = zk.issuer ∧
  t.common_name.getD "" = zk.common_name ∧
  t.software_agent.getD "" = zk.software_agent ∧
  t.signing_time.getD "" = zk.signing_time ∧
  zk.cert_fingerprint = ""

/-- The fixed serialization layout of C6: `content_hash` raw, one boolean
byte, then each string as an 8-byte little-endian length prefixed UTF-8
byte sequence. -/
def string_field_bytes (s : Bytes) : Bytes := toLe8 s.length ++ s

/-- Serialize a `ParsedOutputs` record in C6's fixed layout (bincode 1.x
with fixed-width integer encoding). -/
def serialize_public_outputs (p : ParsedOutputs) : Bytes :=
  p.content_hash ++ [if p.has_c2pa then 1 else 0] ++
  string_field_bytes p.trust_list_match ++
  string_field_bytes p.validation_state ++
  string_field_bytes p.digital_source_type ++
  string_field_bytes p.issuer ++
  string_field_bytes p.common_name ++
  string_field_bytes p.software_agent ++
  string_field_bytes p.signing_time ++
  string_field_bytes p.cert_fingerprint

/-- The invariants a value of Rust type `PublicOutputs` carries: a 32-byte
hash, and strings that are valid UTF-8 with a `usize` length. -/
def WF_public_outputs (p : ParsedOutputs) : Prop :=
  p.content_hash.length = 32 ∧
  (isValidUtf8 p.trust_list_match ∧ p.trust_list_match.length < 2 ^ 64) ∧
  (isValidUtf8 p.validation_state ∧ p.validation_state.length < 2 ^ 64) ∧
  (isValidUtf8 p.digital_source_type ∧ p.digital_source_type.length < 2 ^ 64) ∧
  (isValidUtf8 p.issuer ∧ p.issuer.length < 2 ^ 64) ∧
  (isValidUtf8 p.common_name ∧ p.common_name.length < 2 ^ 64) ∧
  (isValidUtf8 p.software_agent ∧ p.software_agent.length < 2 ^ 64) ∧
  (isValidUtf8 p.signing_time ∧ p.signing_time.length < 2 ^ 64) ∧
  (isValidUtf8 p.cert_fingerprint ∧ p.cert_fingerprint.length < 2 ^ 64)

/-! ## Witness fixtures: concrete oracles and inputs -/

/-- An oracle on which every external primitive fails (and SHA-256 is a
fixed function). -/
def oracle0 : CryptoOracle :=
  { coseFromTagged := fun _ => none
    coseFromSlice := fun _ => none
    certFromDer := fun _ => none
    keyFromSec1 := fun _ => none
    sigFromSlice := fun _ => none
    cborSerialize := fun _ => none
    ecdsaVerify := fun _ _ _ => false
    cborDecode := fun _ => none
    utf8Lossy := fun _ => ""
    sha256 := fun _ => List.replicate 32 0 }

/-- A COSE envelope with `alg = ES256`. -/
def coseW : CoseSign1E :=
  { protectedAlg := some (.assigned (-7))
    protectedOriginal := some [0xA1]
    protectedRest := []
    unprotectedRest := []
    signature := [3] }

/-- A COSE envelope with `alg = EdDSA` (-8). -/
def coseW8 : CoseSign1E := { coseW with protectedAlg := some (.assigned (-8)) }

def certW : CertE :=
  { spkiSubjectPublicKey := [4]
    issuer := [[("2.5.4.10", [65])]]
    subject := [[("2.5.4.3", [66])]] }

/-- An oracle on which every primitive succeeds. -/
def oracleW : CryptoOracle :=
  { oracle0 with
    coseFromTagged := fun _ => some coseW
    certFromDer := fun _ => some certW
    keyFromSec1 := fun b => some ⟨b⟩
    sigFromSlice := fun b => some ⟨b⟩
    cborSerialize := fun _ => some [5]
    ecdsaVerify := fun _ _ _ => true
    utf8Lossy := fun _ => "A" }

/-- `oracleW` with the EdDSA envelope. -/
def oracleW8 : CryptoOracle := { oracleW with coseFromTagged := fun _ => some coseW8 }

/-- Evidence with a manifest, a two-certificate chain and an official root. -/
def evW : CryptoEvidence :=
  { asset_hash := List.replicate 32 9
    has_manifest := true
    cose_sign1_bytes := [9]
    cert_chain_der := [[1], [2]]
    claim_cbor := [7]
    assertion_boxes := []
    official_trust_anchors_der := [[2]]
    curated_trust_anchors_der := [] }

/-- Evidence without a manifest. -/
def evU : CryptoEvidence := { evW with has_manifest := false }

/-- Scenario 1's unsigned PNG: signature plus a bare IEND chunk header. -/
def png_unsigned : Bytes :=
  [0x89, 0x50, 0x4E, 0x47, 0x0D, 0x0A, 0x1A, 0x0A, 0, 0, 0, 0, 0x49, 0x45, 0x4E, 0x44]

/-- A reader oracle on which c2pa-rs cannot read the file under any trust
bundle (what `Reader::from_file` does on a PNG with no JUMBF). -/
def reader0 : String → Option ReaderE := fun _ => none

/-- The evidence the host extracts from `png_unsigned`. -/
def ev_png_result : CryptoEvidence :=
  { asset_hash := List.replicate 32 0
    has_manifest := false
    cose_sign1_bytes := []
    cert_chain_der := []
    claim_cbor := []
    assertion_boxes := []
    official_trust_anchors_der := []
    curated_trust_anchors_der := [] }

/-- A CBOR decode oracle: payload `[1]` holds an actions array with only a
`digitalSourceType`; payload `[2]` holds one with only a `when`. -/
def de0 : Bytes → Option CVal := fun b =>
  if b = [1] then
    some (CVal.map [(CVal.text "actions",
      CVal.array [CVal.map [(CVal.text "digitalSourceType", CVal.text "X")]])])
  else if b = [2] then
    some (CVal.map [(CVal.text "actions",
      CVal.array [CVal.map [(CVal.text "when", CVal.text "T")]])])
  else none

/-- Two `c2pa.actions` assertion boxes: the first yields only a
`digitalSourceType`, the second only a `when`. -/
def boxes0 : List (Bytes × Bytes) := [(ascii "c2pa.actions", [1]), (ascii "c2pa.actions", [2])]

/-- Witness fixtures for the on-chain claims. -/
def ch1 : Bytes := List.replicate 32 1

def zeros32 : Bytes := List.replicate 32 0

def att1 : Attestation :=
  { content_hash := ch1
    has_c2pa := false
    trust_list_match := []
    validation_state := []
    digital_source_type := []
    issuer := []
    common_name := []
    software_agent := []
    signing_time := []
    cert_fingerprint := []
    submitted_by := []
    timestamp := 0
    bump := 0
    proof_type := ascii "trusted_verifier"
    email_domain := []
    email_hash := zeros32
    wallet := default_pubkey
    verifier_version := []
    trust_bundle_hash := []
    wallet_sig := List.replicate 64 0 }

def L1 : Ledger := [(ch1, att1)]

/-- Public inputs committing to the all-zero hash (32 zero bytes, a `true`
boolean byte, eight empty strings). -/
def pi0 : Bytes := List.replicate 32 0 ++ [1] ++ List.replicate 64 0

def att2 : Attestation :=
  { content_hash := zeros32
    has_c2pa := true
    trust_list_match := []
    validation_state := []
    digital_source_type := []
    issuer := []
    common_name := []
    software_agent := []
    signing_time := []
    cert_fingerprint := []
    submitted_by := []
    timestamp := 0
    bump := 0
    proof_type := ascii "zk_groth16"
    email_domain := []
    email_hash := zeros32
    wallet := default_pubkey
    verifier_version := []
    trust_bundle_hash := []
    wallet_sig := List.replicate 64 0 }

def L2 : Ledger := [(zeros32, att2)]

def long_string : Bytes := List.replicate 129 97

def pi_long : Bytes :=
  List.replicate 32 0 ++ [1] ++ toLe8 129 ++ long_string ++ List.replicate 56 0

def outs_long : ParsedOutputs :=
  { content_hash := zeros32
    has_c2pa := true
    trust_list_match := long_string
    validation_state := []
    digital_source_type := []
    issuer := []
    common_name := []
    software_agent := []
    signing_time := []
    cert_fingerprint := [] }

def poW : ParsedOutputs :=
  { content_hash := List.replicate 32 7
    has_c2pa := true
    trust_list_match := ascii "official"
    validation_state := ascii "Verified"
    digital_source_type := []
    issuer := ascii "Acme"
    common_name := []
    software_agent := []
    signing_time := []
    cert_fingerprint := ascii "ab12" }

/-! ## Claim theorems -/

/-- Claim C1: for every `CryptoEvidence`, if the pipeline's `PublicOutputs`
has `has_c2pa = true` then the COSE envelope parsed with `alg = ES256`, the
chain was non-empty, the leaf certificate and its P-256 key parsed, and
ECDSA verification succeeded over the serialized `Sig_structure1` holding
`claim_cbor` as detached payload; and whenever `has_c2pa = false` the output
is exactly `unsigned_outputs`. -/
theorem C1_signature_gate (o : CryptoOracle) (ev : CryptoEvidence) :
    ((guest_main o ev).has_c2pa = true →
      ev.has_manifest = true ∧
      ∃ cose, coseParse o ev.cose_sign1_bytes = some cose ∧
        cose.protectedAlg = some (AlgE.assigned (-7)) ∧
        ∃ leaf_der rest, ev.cert_chain_der = leaf_der :: rest ∧
        ∃ cert, o.certFromDer leaf_der = some cert ∧
        ∃ vk, o.keyFromSec1 cert.spkiSubjectPublicKey = some vk ∧
        ∃ tbs, o.cborSerialize
            (sig_structure (cose.protectedOriginal.getD []) ev.claim_cbor) = some tbs ∧
        ∃ sg, o.sigFromSlice cose.signature = some sg ∧
          o.ecdsaVerify vk tbs sg = true) ∧
    ((guest_main o ev).has_c2pa = false →
      guest_main o ev = unsigned_outputs ev.asset_hash) := by
  unfold guest_main
  by_cases hm : ev.has_manifest
  · rw [if_pos hm]
    unfold verify_and_extract
    repeat' split
    all_goals try exact ⟨fun h => absurd h (by simp [unsigned_outputs]), fun _ => rfl⟩
    rename_i x1 cose hcose halgneg x2 leaf_der rest hchain x3 cert hcert x4 vk hkey x5 tbs
      htbs x6 sg hsg hverneg
    constructor
    · intro _
      exact ⟨hm, cose, hcose, (is_es256_iff _).mp (not_not.mp halgneg), leaf_der, rest,
        hchain, cert, hcert, vk, hkey, tbs, htbs, sg, hsg, not_not.mp hverneg⟩
    · intro hfalse
      simp at hfalse
  · rw [if_neg hm]
    exact ⟨fun h => absurd h (by simp [unsigned_outputs]), fun _ => rfl⟩

/-- Witness for C1 at concrete inputs: on `oracleW`/`evW` the pipeline
reports `has_c2pa = true` and the crypto chain is exhibited; on `evU`
(no manifest) the unsigned outputs are returned. -/
theorem C1_signature_gate_witness :
    (∃ cose, coseParse oracleW evW.cose_sign1_bytes = some cose ∧
      cose.protectedAlg = some (AlgE.assigned (-7)) ∧
      ∃ leaf_der rest, evW.cert_chain_der = leaf_der :: rest ∧
      ∃ cert, oracleW.certFromDer leaf_der = some cert ∧
      ∃ vk, oracleW.keyFromSec1 cert.spkiSubjectPublicKey = some vk ∧
      ∃ tbs, oracleW.cborSerialize
          (sig_structure (cose.protectedOriginal.getD []) evW.claim_cbor) = some tbs ∧
      ∃ sg, oracleW.sigFromSlice cose.signature = some sg ∧
        oracleW.ecdsaVerify vk tbs sg = true) ∧
    guest_main oracleW evU = unsigned_outputs evU.asset_hash :=
  ⟨((C1_signature_gate oracleW evW).1 rfl).2, (C1_signature_gate oracleW evU).2 rfl⟩

/-- Claim C4: when the COSE envelope parses but its protected `alg` is
anything other than ES256 (COSE -7), the pipeline returns the unsigned
result: `has_c2pa = false`, `validation_state = "None"`, every other string
field empty. -/
theorem C4_wrong_algorithm (o : CryptoOracle) (ev : CryptoEvidence) (cose : CoseSign1E)
    (hcose : coseParse o ev.cose_sign1_bytes = some cose)
    (halg : cose.protectedAlg ≠ some (AlgE.assigned (-7))) :
    verify_and_extract o ev = unsigned_outputs ev.asset_hash ∧
    (verify_and_extract o ev).has_c2pa = false ∧
    (verify_and_extract o ev).validation_state = "None" ∧
    (verify_and_extract o ev).trust_list_match = "" ∧
    (verify_and_extract o ev).digital_source_type = "" ∧
    (verify_and_extract o ev).issuer = "" ∧
    (verify_and_extract o ev).common_name = "" ∧
    (verify_and_extract o ev).software_agent = "" ∧
    (verify_and_extract o ev).signing_time = "" ∧
    (verify_and_extract o ev).cert_fingerprint = "" := by
  have hes : is_es256 cose.protectedAlg = false := by
    cases h : is_es256 cose.protectedAlg
    · rfl
    · exact absurd ((is_es256_iff _).mp h) halg
  have hve : verify_and_extract o ev = unsigned_outputs ev.asset_hash := by
    unfold verify_and_extract
    rw [hcose]
    simp [hes]
  rw [hve]
  exact ⟨rfl, rfl, rfl, rfl, rfl, rfl, rfl, rfl, rfl, rfl⟩

/-- Witness for C4: a structurally well-formed COSE envelope with
`alg = -8` (EdDSA) yields the unsigned verdict. -/
theorem C4_wrong_algorithm_witness :
    verify_and_extract oracleW8 evW = unsigned_outputs evW.asset_hash ∧
    (verify_and_extract oracleW8 evW).validation_state = "None" :=
  ⟨(C4_wrong_algorithm oracleW8 evW coseW8 rfl (by decide)).1,
   (C4_wrong_algorithm oracleW8 evW coseW8 rfl (by decide)).2.2.1⟩

/-- Either the pipeline fails (unsigned outputs) or it succeeds and the
trust fields are wired as in the source. -/
theorem verify_and_extract_cases (o : CryptoOracle) (ev : CryptoEvidence) :
    verify_and_extract o ev = unsigned_outputs ev.asset_hash ∨
    ((verify_and_extract o ev).has_c2pa = true ∧
     (verify_and_extract o ev).trust_list_match =
       determine_trust_level ev.cert_chain_der ev.official_trust_anchors_der
         ev.curated_trust_anchors_der ∧
     (verify_and_extract o ev).validation_state =
       (if determine_trust_level ev.cert_chain_der ev.official_trust_anchors_der
           ev.curated_trust_anchors_der = "untrusted" then "SignatureOnly"
        else "Verified")) := by
  unfold verify_and_extract
  repeat' split
  all_goals try exact Or.inl rfl
  all_goals refine Or.inr ⟨rfl, rfl, ?_⟩
  · exact if_pos (by assumption)
  · exact if_neg (by assumption)

/-- Claim C3: the trust label is computed from the last certificate by
byte-identical comparison, official before curated before untrusted (so
"official" wins when the root is in both sets); after a successful
verification `validation_state` is "Verified" exactly for official/curated
and "SignatureOnly" for untrusted, and it is "None" whenever no signature
verified. -/
theorem C3_trust_classification :
    (∀ (chain off cur : List Bytes) (root : Bytes), chain.getLast? = some root →
      ((determine_trust_level chain off cur = "official" ↔ root ∈ off) ∧
       (determine_trust_level chain off cur = "curated" ↔ root ∉ off ∧ root ∈ cur) ∧
       (determine_trust_level chain off cur = "untrusted" ↔ root ∉ off ∧ root ∉ cur))) ∧
    (∀ (o : CryptoOracle) (ev : CryptoEvidence),
      ((verify_and_extract o ev).has_c2pa = true →
        (verify_and_extract o ev).trust_list_match =
          determine_trust_level ev.cert_chain_der ev.official_trust_anchors_der
            ev.curated_trust_anchors_der ∧
        (verify_and_extract o ev).validation_state =
          (if determine_trust_level ev.cert_chain_der ev.official_trust_anchors_der
              ev.curated_trust_anchors_der = "untrusted" then "SignatureOnly"
           else "Verified")) ∧
      ((verify_and_extract o ev).has_c2pa = false →
        (verify_and_extract o ev).validation_state = "None")) := by
  constructor
  · intro chain off cur root hroot
    unfold determine_trust_level
    rw [hroot]
    by_cases h1 : root ∈ off
    · simp [h1]
    · by_cases h2 : root ∈ cur <;> simp [h1, h2]
  · intro o ev
    rcases verify_and_extract_cases o ev with h | ⟨h1, h2, h3⟩
    · rw [h]
      exact ⟨fun hc => absurd hc (by simp [unsigned_outputs]), fun _ => rfl⟩
    · exact ⟨fun _ => ⟨h2, h3⟩, fun hf => by rw [h1] at hf; exact Bool.noConfusion hf⟩

/-- Witness for C3: concrete classification of a root present in both
anchor sets, and the concrete verified/unsigned pipelines. -/
theorem C3_trust_classification_witness :
    (determine_trust_level [[1], [2]] [[2]] [[2]] = "official" ↔ ([2] : Bytes) ∈ [[2]]) ∧
    (verify_and_extract oracleW evW).trust_list_match =
      determine_trust_level evW.cert_chain_der evW.official_trust_anchors_der
        evW.curated_trust_anchors_der ∧
    (verify_and_extract oracle0 evU).validation_state = "None" :=
  ⟨(C3_trust_classification.1 [[1], [2]] [[2]] [[2]] [2] rfl).1,
   ((C3_trust_classification.2 oracleW evW).1 rfl).1,
   (C3_trust_classification.2 oracle0 evU).2 rfl⟩

theorem ev_png : extract_crypto_evidence oracle0 png_unsigned [] [] = ev_png_result := by
  have h : pngChunkScan png_unsigned 8 = [] := by
    unfold pngChunkScan
    norm_num [png_unsigned]
  unfold extract_crypto_evidence extract_c2pa_from_png
  simp only [h]
  rfl

/-- Counterexample to C2: on the unsigned PNG of scenario 1 (with identical
trust anchors on both sides, and the same SHA-256), the zero-knowledge
profile emits `validation_state = "None"` while the trusted profile emits no
`validation_state` at all, so the profiles' outputs are not bit-identical. -/
theorem C2_counterexample :
    ¬ outputs_match (guest_main oracle0 (extract_crypto_evidence oracle0 png_unsigned [] []))
      (verifier_verify oracle0.sha256 reader0 "" "" "unsigned.png" png_unsigned) := by
  rw [ev_png]
  simp only [outputs_match]
  decide

/-- Claim C2 as amended: the two profiles do not produce bit-identical
outputs.  Already on every unsigned input (no manifest found by the host,
file unreadable by c2pa-rs) the zk profile commits `validation_state =
"None"` and empty strings while the trusted profile returns a record with
absent optional fields and no `cert_fingerprint` field at all, so the
field-wise comparison fails. -/
theorem C2_profiles_diverge (o : CryptoOracle) (reader : String → Option ReaderE)
    (official_der curated_der : List Bytes) (official_pem curated_pem path : String)
    (media : Bytes)
    (hzk : (extract_crypto_evidence o media official_der curated_der).has_manifest = false)
    (ht : resolve_trust reader official_pem curated_pem = none) :
    (guest_main o (extract_crypto_evidence o media official_der curated_der)).validation_state
      = "None" ∧
    (verifier_verify o.sha256 reader official_pem curated_pem path media).validation_state
      = none ∧
    ¬ outputs_match (guest_main o (extract_crypto_evidence o media official_der curated_der))
      (verifier_verify o.sha256 reader official_pem curated_pem path media) := by
  have h1 : guest_main o (extract_crypto_evidence o media official_der curated_der) =
      unsigned_outputs (extract_crypto_evidence o media official_der curated_der).asset_hash := by
    unfold guest_main
    simp [hzk]
  have h2 : verifier_verify o.sha256 reader official_pem curated_pem path media =
      VerifyOutputE.unsigned path (some (hex_encode (o.sha256 media))) := by
    unfold verifier_verify
    rw [ht]
  rw [h1, h2]
  refine ⟨rfl, rfl, ?_⟩
  simp [outputs_match, unsigned_outputs, VerifyOutputE.unsigned]

/-- Witness for the amended C2 at the concrete unsigned PNG. -/
theorem C2_profiles_diverge_witness :
    (guest_main oracle0 (extract_crypto_evidence oracle0 png_unsigned [] [])).validation_state
      = "None" ∧
    (verifier_verify oracle0.sha256 reader0 "" "" "unsigned.png" png_unsigned).validation_state
      = none :=
  ⟨(C2_profiles_diverge oracle0 reader0 [] [] "" "" "unsigned.png" png_unsigned
      (by rw [ev_png]; rfl) rfl).1,
   (C2_profiles_diverge oracle0 reader0 [] [] "" "" "unsigned.png" png_unsigned
      (by rw [ev_png]; rfl) rfl).2.1⟩

/-- Counterexample to C9: with two actions assertions, the first holding
only a `digitalSourceType` and the second only a `when`, the code returns
`("X", "")` — it stops after the first assertion that yielded any value —
while the claim's "first non-empty `when` encountered, stopping only once
both are populated" demands `("X", "T")`. -/
theorem C9_counterexample : extract_from_actions de0 boxes0 ≠ c9_spec de0 boxes0 := by
  decide

/-- Claim C9 as amended: the scan stops at the first `c2pa.actions*`
assertion from which at least one of the two values was extracted
non-empty; both values come from that single assertion (within it, first
non-empty each, stopping once both are filled), and later assertions are
never consulted; both values default to empty when no assertion yields
anything. -/
theorem C9_action_scan (de : Bytes → Option CVal) (boxes : List (Bytes × Bytes)) :
    extract_from_actions de boxes = c9_amended de boxes := by
  induction boxes with
  | nil => rfl
  | cons box rest ih =>
    show (match actionsOfBox de box with
      | none => extract_from_actions de rest
      | some actions =>
        let sw := scanActions actions "" ""
        if sw.1 ≠ "" ∨ sw.2 ≠ "" then sw else extract_from_actions de rest) =
      c9_amended de (box :: rest)
    cases h : actionsOfBox de box with
    | none =>
      rw [ih]
      unfold c9_amended
      simp [List.filterMap_cons, h]
    | some acts =>
      unfold c9_amended
      simp only [List.filterMap_cons, h, List.map_cons]
      by_cases hsw : scanActions acts "" "" = ("", "")
      · rw [List.find?_cons_of_neg _ (by simp [hsw])]
        rw [ih]
        simp only [hsw]
        rw [if_neg (by simp)]
        rfl
      · rw [List.find?_cons_of_pos _ (by simp [hsw])]
        have hor : (scanActions acts "" "").1 ≠ "" ∨ (scanActions acts "" "").2 ≠ "" := by
          rw [Prod.ext_iff] at hsw
          exact not_and_or.mp hsw
        rw [if_pos hor]
        rfl

theorem ledger_lookup_cons (ch k : Bytes) (a : Attestation) (L : Ledger) :
    ledger_lookup ((ch, a) :: L) k = if ch = k then some a else ledger_lookup L k := by
  unfold ledger_lookup
  by_cases h : ch = k
  · rw [List.find?_cons_of_pos _ (by simp [h])]
    simp [h]
  · rw [List.find?_cons_of_neg _ (by simp [h]), if_neg h]

/-- A successful `submit_proof` stores exactly one new record, keyed by the
instruction's `content_hash`. -/
theorem submit_proof_ok (L : Ledger) (proof_ok : Bool)
    (pi ch ed eh w vv tbh sb : Bytes) (now : Int) (bump : Nat)
    (wsc : Except ProvError Bytes) (L' : Ledger)
    (h : submit_proof L proof_ok pi ch ed eh w vv tbh sb now bump wsc = .ok L') :
    ledger_lookup L ch = none ∧ ∃ a, L' = (ch, a) :: L := by
  unfold submit_proof at h
  split at h
  · exact Except.noConfusion h
  · rename_i hnone
    refine ⟨Option.not_isSome_iff_eq_none.mp hnone, ?_⟩
    repeat' split at h
    all_goals first
      | exact Except.noConfusion h
      | (injection h with h2; exact ⟨_, h2.symm⟩)

/-- A successful `submit_attestation` stores exactly one new record, keyed
by the instruction's `content_hash`. -/
theorem submit_attestation_ok (L : Ledger) (ea ch : Bytes) (hc : Bool)
    (tlm vs dst iss cn sa st cf ed eh w vv tbh au : Bytes) (now : Int) (bump : Nat)
    (wsc : Except ProvError Bytes) (L' : Ledger)
    (h : submit_attestation L ea ch hc tlm vs dst iss cn sa st cf ed eh w vv tbh au now
      bump wsc = .ok L') :
    ledger_lookup L ch = none ∧ ∃ a, L' = (ch, a) :: L := by
  unfold submit_attestation at h
  split at h
  · exact Except.noConfusion h
  · rename_i hnone
    refine ⟨Option.not_isSome_iff_eq_none.mp hnone, ?_⟩
    repeat' split at h
    all_goals first
      | exact Except.noConfusion h
      | (injection h with h2; exact ⟨_, h2.symm⟩)

/-- Claim C5: per `content_hash` the record store is create-once.  A write
against an existing record fails with the distinct already-exists outcome
(for both writers), and a successful write transitions the hash from absent
to present while touching no other key. -/
theorem C5_attestation_uniqueness :
    (∀ (L : Ledger) (r : Attestation) (proof_ok : Bool) (pi ch ed eh w vv tbh sb : Bytes)
      (now : Int) (bump : Nat) (wsc : Except ProvError Bytes),
      ledger_lookup L ch = some r →
        submit_proof L proof_ok pi ch ed eh w vv tbh sb now bump wsc =
          .error .accountInUse) ∧
    (∀ (L : Ledger) (r : Attestation) (ea ch : Bytes) (hc : Bool)
      (tlm vs dst iss cn sa st cf ed eh w vv tbh au : Bytes) (now : Int) (bump : Nat)
      (wsc : Except ProvError Bytes),
      ledger_lookup L ch = some r →
        submit_attestation L ea ch hc tlm vs dst iss cn sa st cf ed eh w vv tbh au now
          bump wsc = .error .accountInUse) ∧
    (∀ (L : Ledger) (proof_ok : Bool) (pi ch ed eh w vv tbh sb : Bytes) (now : Int)
      (bump : Nat) (wsc : Except ProvError Bytes) (L' : Ledger),
      submit_proof L proof_ok pi ch ed eh w vv tbh sb now bump wsc = .ok L' →
        ledger_lookup L ch = none ∧ (∃ a, ledger_lookup L' ch = some a) ∧
        ∀ k, k ≠ ch → ledger_lookup L' k = ledger_lookup L k) ∧
    (∀ (L : Ledger) (ea ch : Bytes) (hc : Bool)
      (tlm vs dst iss cn sa st cf ed eh w vv tbh au : Bytes) (now : Int) (bump : Nat)
      (wsc : Except ProvError Bytes) (L' : Ledger),
      submit_attestation L ea ch hc tlm vs dst iss cn sa st cf ed eh w vv tbh au now bump
        wsc = .ok L' →
        ledger_lookup L ch = none ∧ (∃ a, ledger_lookup L' ch = some a) ∧
        ∀ k, k ≠ ch → ledger_lookup L' k = ledger_lookup L k) := by
  refine ⟨?_, ?_, ?_, ?_⟩
  · intro L r proof_ok pi ch ed eh w vv tbh sb now bump wsc hsome
    unfold submit_proof
    rw [if_pos (by simp [hsome])]
  · intro L r ea ch hc tlm vs dst iss cn sa st cf ed eh w vv tbh au now bump wsc hsome
    unfold submit_attestation
    rw [if_pos (by simp [hsome])]
  · intro L proof_ok pi ch ed eh w vv tbh sb now bump wsc L' h
    obtain ⟨hnone, a, rfl⟩ := submit_proof_ok L proof_ok pi ch ed eh w vv tbh sb now bump
      wsc L' h
    refine ⟨hnone, ⟨a, ?_⟩, ?_⟩
    · rw [ledger_lookup_cons, if_pos rfl]
    · intro k hk
      rw [ledger_lookup_cons, if_neg (fun hc2 => hk hc2.symm)]
  · intro L ea ch hc tlm vs dst iss cn sa st cf ed eh w vv tbh au now bump wsc L' h
    obtain ⟨hnone, a, rfl⟩ := submit_attestation_ok L ea ch hc tlm vs dst iss cn sa st cf
      ed eh w vv tbh au now bump wsc L' h
    refine ⟨hnone, ⟨a, ?_⟩, ?_⟩
    · rw [ledger_lookup_cons, if_pos rfl]
    · intro k hk
      rw [ledger_lookup_cons, if_neg (fun hc2 => hk hc2.symm)]

/-- Witness for C5: on the empty store, `submit_attestation` creates the
record for `ch1`; both writers then fail with the already-exists outcome,
and the successful write touched no other key. -/
theorem C5_attestation_uniqueness_witness :
    submit_proof L1 true [] ch1 [] zeros32 default_pubkey [] [] [] 0 0 (.ok [])
      = .error .accountInUse ∧
    submit_attestation L1 [] ch1 false [] [] [] [] [] [] [] [] [] zeros32 default_pubkey
      [] [] [] 0 0 (.ok []) = .error .accountInUse ∧
    (ledger_lookup ([] : Ledger) ch1 = none ∧ (∃ a, ledger_lookup L1 ch1 = some a) ∧
      ∀ k, k ≠ ch1 → ledger_lookup L1 k = ledger_lookup ([] : Ledger) k) :=
  ⟨C5_attestation_uniqueness.1 L1 att1 true [] ch1 [] zeros32 default_pubkey [] [] [] 0 0
      (.ok []) rfl,
   C5_attestation_uniqueness.2.1 L1 att1 [] ch1 false [] [] [] [] [] [] [] [] [] zeros32
      default_pubkey [] [] [] 0 0 (.ok []) rfl,
   C5_attestation_uniqueness.2.2.2 [] [] ch1 false [] [] [] [] [] [] [] [] [] zeros32
      default_pubkey [] [] [] 0 0 (.ok []) L1 rfl⟩

/-- Claim C10: when the parsed public inputs commit to a different
`content_hash` than the one used for the record address, `submit_proof`
fails with `ContentHashMismatch`; and every successful `submit_proof` stores
its record at the key equal to the hash committed inside the proof's public
outputs. -/
theorem C10_content_hash_binding :
    (∀ (L : Ledger) (pi ch : Bytes) (outs : ParsedOutputs) (ed eh w vv tbh sb : Bytes)
      (now : Int) (bump : Nat) (wsc : Except ProvError Bytes),
      ledger_lookup L ch = none →
      parse_public_outputs pi = some outs →
      outs.content_hash ≠ ch →
      submit_proof L true pi ch ed eh w vv tbh sb now bump wsc =
        .error (.program .contentHashMismatch)) ∧
    (∀ (L : Ledger) (proof_ok : Bool) (pi ch ed eh w vv tbh sb : Bytes) (now : Int)
      (bump : Nat) (wsc : Except ProvError Bytes) (L' : Ledger),
      submit_proof L proof_ok pi ch ed eh w vv tbh sb now bump wsc = .ok L' →
      ∃ outs a, parse_public_outputs pi = some outs ∧ outs.content_hash = ch ∧
        ledger_lookup L' ch = some a ∧ a.content_hash = ch) := by
  constructor
  · intro L pi ch outs ed eh w vv tbh sb now bump wsc hnone hparse hne
    unfold submit_proof
    rw [if_neg (by simp [hnone])]
    rw [if_neg (by simp)]
    simp only [hparse]
    rw [if_pos hne]
  · intro L proof_ok pi ch ed eh w vv tbh sb now bump wsc L' h
    unfold submit_proof at h
    split at h
    · exact Except.noConfusion h
    · split at h
      · exact Except.noConfusion h
      · split at h
        · exact Except.noConfusion h
        · rename_i outs hparse
          split at h
          · exact Except.noConfusion h
          · rename_i hhash
            split at h
            · exact Except.noConfusion h
            · split at h
              · exact Except.noConfusion h
              · rename_i sig hws
                injection h with h2
                cases h2
                exact ⟨outs, _, hparse, not_not.mp hhash,
                  (ledger_lookup_cons ch ch _ L).trans (if_pos rfl), not_not.mp hhash⟩

/-- Witness for C10: concrete mismatch (the proof committed to zeroes, the
address hash is ones) and a concrete successful store at the committed
hash. -/
theorem C10_content_hash_binding_witness :
    submit_proof [] true pi0 ch1 [] zeros32 default_pubkey [] [] [] 0 0 (.ok []) =
      .error (.program .contentHashMismatch) ∧
    (∃ outs a, parse_public_outputs pi0 = some outs ∧ outs.content_hash = zeros32 ∧
      ledger_lookup L2 zeros32 = some a ∧ a.content_hash = zeros32) :=
  ⟨C10_content_hash_binding.1 [] pi0 ch1
      { content_hash := zeros32, has_c2pa := true, trust_list_match := [],
        validation_state := [], digital_source_type := [], issuer := [], common_name := [],
        software_agent := [], signing_time := [], cert_fingerprint := [] }
      [] zeros32 default_pubkey [] [] [] 0 0 (.ok []) rfl (by decide) (by decide),
   C10_content_hash_binding.2 [] true pi0 zeros32 [] zeros32 default_pubkey [] [] [] 0 0
      (.ok []) L2 rfl⟩

/-- A successful `submit_proof` only ever stores a record whose eight
public-output string fields are within `MAX_STRING_LEN`. -/
theorem submit_proof_ok_bounds (L : Ledger) (proof_ok : Bool)
    (pi ch ed eh w vv tbh sb : Bytes) (now : Int) (bump : Nat)
    (wsc : Except ProvError Bytes) (L' : Ledger)
    (h : submit_proof L proof_ok pi ch ed eh w vv tbh sb now bump wsc = .ok L') :
    ∃ rec, L' = (ch, rec) :: L ∧
      rec.trust_list_match.length ≤ MAX_STRING_LEN ∧
      rec.validation_state.length ≤ MAX_STRING_LEN ∧
      rec.digital_source_type.length ≤ MAX_STRING_LEN ∧
      rec.issuer.length ≤ MAX_STRING_LEN ∧
      rec.common_name.length ≤ MAX_STRING_LEN ∧
      rec.software_agent.length ≤ MAX_STRING_LEN ∧
      rec.signing_time.length ≤ MAX_STRING_LEN ∧
      rec.cert_fingerprint.length ≤ MAX_STRING_LEN := by
  unfold submit_proof at h
  split at h
  · exact Except.noConfusion h
  · split at h
    · exact Except.noConfusion h
    · split at h
      · exact Except.noConfusion h
      · rename_i outs hparse
        split at h
        · exact Except.noConfusion h
        · split at h
          · exact Except.noConfusion h
          · rename_i hbnd
            split at h
            · exact Except.noConfusion h
            · rename_i sig hws
              injection h with h2
              cases h2
              have hb := not_not.mp hbnd
              simp only [strings_within_bounds, List.all_cons, List.all_nil,
                Bool.and_eq_true, decide_eq_true_eq] at hb
              obtain ⟨b1, b2, b3, b4, b5, b6, b7, b8, _⟩ := hb
              exact ⟨_, rfl, b1, b2, b3, b4, b5, b6, b7, b8⟩

/-- A successful `submit_attestation` only ever stores a record whose eight
string fields are within `MAX_STRING_LEN`. -/
theorem submit_attestation_ok_bounds (L : Ledger) (ea ch : Bytes) (hc : Bool)
    (tlm vs dst iss cn sa st cf ed eh w vv tbh au : Bytes) (now : Int) (bump : Nat)
    (wsc : Except ProvError Bytes) (L' : Ledger)
    (h : submit_attestation L ea ch hc tlm vs dst iss cn sa st cf ed eh w vv tbh au now
      bump wsc = .ok L') :
    ∃ rec, L' = (ch, rec) :: L ∧
      rec.trust_list_match.length ≤ MAX_STRING_LEN ∧
      rec.validation_state.length ≤ MAX_STRING_LEN ∧
      rec.digital_source_type.length ≤ MAX_STRING_LEN ∧
      rec.issuer.length ≤ MAX_STRING_LEN ∧
      rec.common_name.length ≤ MAX_STRING_LEN ∧
      rec.software_agent.length ≤ MAX_STRING_LEN ∧
      rec.signing_time.length ≤ MAX_STRING_LEN ∧
      rec.cert_fingerprint.length ≤ MAX_STRING_LEN := by
  unfold submit_attestation at h
  split at h
  · exact Except.noConfusion h
  · split at h
    · exact Except.noConfusion h
    · split at h
      · exact Except.noConfusion h
      · rename_i hbnd
        split at h
        · exact Except.noConfusion h
        · rename_i sig hws
          injection h with h2
          cases h2
          have hb := not_not.mp hbnd
          simp only [strings_within_bounds, List.all_cons, List.all_nil,
            Bool.and_eq_true, decide_eq_true_eq] at hb
          obtain ⟨b1, b2, b3, b4, b5, b6, b7, b8, _⟩ := hb
          exact ⟨_, rfl, b1, b2, b3, b4, b5, b6, b7, b8⟩

/-- Claim C7: oversized string fields make the writers fail with
`StringTooLong` (when the preceding account/proof/parse/hash/authority gates
pass) and store nothing; consequently, in every reachable store every record
has its eight string fields bounded by `MAX_STRING_LEN = 128`. -/
theorem C7_string_bound_enforcement :
    (∀ (L : Ledger) (pi ch : Bytes) (outs : ParsedOutputs) (ed eh w vv tbh sb : Bytes)
      (now : Int) (bump : Nat) (wsc : Except ProvError Bytes),
      ledger_lookup L ch = none →
      parse_public_outputs pi = some outs →
      outs.content_hash = ch →
      (MAX_STRING_LEN < outs.trust_list_match.length ∨
       MAX_STRING_LEN < outs.validation_state.length ∨
       MAX_STRING_LEN < outs.digital_source_type.length ∨
       MAX_STRING_LEN < outs.issuer.length ∨
       MAX_STRING_LEN < outs.common_name.length ∨
       MAX_STRING_LEN < outs.software_agent.length ∨
       MAX_STRING_LEN < outs.signing_time.length ∨
       MAX_STRING_LEN < outs.cert_fingerprint.length) →
      submit_proof L true pi ch ed eh w vv tbh sb now bump wsc =
        .error (.program .stringTooLong)) ∧
    (∀ (L : Ledger) (ea ch : Bytes) (hc : Bool)
      (tlm vs dst iss cn sa st cf ed eh w vv tbh : Bytes) (now : Int) (bump : Nat)
      (wsc : Except ProvError Bytes),
      ledger_lookup L ch = none →
      (MAX_STRING_LEN < tlm.length ∨ MAX_STRING_LEN < vs.length ∨
       MAX_STRING_LEN < dst.length ∨ MAX_STRING_LEN < iss.length ∨
       MAX_STRING_LEN < cn.length ∨ MAX_STRING_LEN < sa.length ∨
       MAX_STRING_LEN < st.length ∨ MAX_STRING_LEN < cf.length) →
      submit_attestation L ea ch hc tlm vs dst iss cn sa st cf ed eh w vv tbh ea now bump
        wsc = .error (.program .stringTooLong)) ∧
    (∀ (L : Ledger), Reach L → ∀ (ch : Bytes) (a : Attestation),
      ledger_lookup L ch = some a →
      a.trust_list_match.length ≤ MAX_STRING_LEN ∧
      a.validation_state.length ≤ MAX_STRING_LEN ∧
      a.digital_source_type.length ≤ MAX_STRING_LEN ∧
      a.issuer.length ≤ MAX_STRING_LEN ∧
      a.common_name.length ≤ MAX_STRING_LEN ∧
      a.software_agent.length ≤ MAX_STRING_LEN ∧
      a.signing_time.length ≤ MAX_STRING_LEN ∧
      a.cert_fingerprint.length ≤ MAX_STRING_LEN) := by
  refine ⟨?_, ?_, ?_⟩
  · intro L pi ch outs ed eh w vv tbh sb now bump wsc hnone hparse hhash hover
    unfold submit_proof
    rw [if_neg (by simp [hnone])]
    rw [if_neg (by simp)]
    simp only [hparse]
    rw [if_neg (by simp [hhash])]
    rw [if_pos ?_]
    intro hall
    simp only [strings_within_bounds, List.all_cons, List.all_nil,
      Bool.and_eq_true, decide_eq_true_eq] at hall
    rcases hover with h | h | h | h | h | h | h | h <;> omega
  · intro L ea ch hc tlm vs dst iss cn sa st cf ed eh w vv tbh now bump wsc hnone hover
    unfold submit_attestation
    rw [if_neg (by simp [hnone])]
    rw [if_neg (by simp)]
    rw [if_pos ?_]
    intro hall
    simp only [strings_within_bounds, List.all_cons, List.all_nil,
      Bool.and_eq_true, decide_eq_true_eq] at hall
    rcases hover with h | h | h | h | h | h | h | h <;> omega
  · intro L hR
    induction hR with
    | nil =>
      intro ch a hla
      simp [ledger_lookup] at hla
    | step_proof proof_ok pi ch0 ed eh w vv tbh sb now bump wsc hR hstep ih =>
      intro ch a hla
      obtain ⟨rec, rfl, b1, b2, b3, b4, b5, b6, b7, b8⟩ :=
        submit_proof_ok_bounds _ _ _ _ _ _ _ _ _ _ _ _ _ _ hstep
      rw [ledger_lookup_cons] at hla
      by_cases hc : ch0 = ch
      · rw [if_pos hc] at hla
        cases Option.some.inj hla
        exact ⟨b1, b2, b3, b4, b5, b6, b7, b8⟩
      · rw [if_neg hc] at hla
        exact ih ch a hla
    | step_attest ea ch0 hc0 tlm vs dst iss cn sa st cf ed eh w vv tbh au now bump wsc hR
        hstep ih =>
      intro ch a hla
      obtain ⟨rec, rfl, b1, b2, b3, b4, b5, b6, b7, b8⟩ :=
        submit_attestation_ok_bounds _ _ _ _ _ _ _ _ _ _ _ _ _ _ _ _ _ _ _ _ _ _ hstep
      rw [ledger_lookup_cons] at hla
      by_cases hc : ch0 = ch
      · rw [if_pos hc] at hla
        cases Option.some.inj hla
        exact ⟨b1, b2, b3, b4, b5, b6, b7, b8⟩
      · rw [if_neg hc] at hla
        exact ih ch a hla

set_option maxRecDepth 4096

/-- Witness for C7: a 129-byte `trust_list_match` makes both writers fail
with `StringTooLong`, and a concrete reachable record is bounded. -/
theorem C7_string_bound_enforcement_witness :
    submit_proof [] true pi_long zeros32 [] zeros32 default_pubkey [] [] [] 0 0 (.ok []) =
      .error (.program .stringTooLong) ∧
    submit_attestation [] [] ch1 false long_string [] [] [] [] [] [] [] [] zeros32
      default_pubkey [] [] [] 0 0 (.ok []) = .error (.program .stringTooLong) ∧
    att2.trust_list_match.length ≤ MAX_STRING_LEN :=
  ⟨C7_string_bound_enforcement.1 [] pi_long zeros32 outs_long [] zeros32 default_pubkey
      [] [] [] 0 0 (.ok []) rfl (by decide) (by decide) (Or.inl (by decide)),
   C7_string_bound_enforcement.2.1 [] [] ch1 false long_string [] [] [] [] [] [] [] []
      zeros32 default_pubkey [] [] 0 0 (.ok []) rfl (Or.inl (by decide)),
   (C7_string_bound_enforcement.2.2 L2
      (Reach.step_proof true pi0 zeros32 [] zeros32 default_pubkey [] [] [] 0 0 (.ok [])
        Reach.nil rfl)
      zeros32 att2 rfl).1⟩

theorem read_bincode_string_append (pre s post : Bytes) (hv : isValidUtf8 s = true)
    (hl : s.length < 2 ^ 64) :
    read_bincode_string (pre ++ (string_field_bytes s ++ post)) pre.length =
      some (s, pre.length + 8 + s.length) := by
  have hlen : (pre ++ (string_field_bytes s ++ post)).length =
      pre.length + (8 + (s.length + post.length)) := by
    simp [string_field_bytes, toLe8]
    omega
  unfold read_bincode_string
  rw [if_neg (by omega)]
  have e2 : ((pre ++ (string_field_bytes s ++ post)).drop pre.length).take 8 =
      toLe8 s.length := by
    rw [List.drop_left]
    unfold string_field_bytes
    rw [List.append_assoc]
    exact List.take_left' (toLe8_length _)
  rw [e2, fromLe8_toLe8 _ hl]
  rw [if_neg (by omega)]
  have e3 : (pre ++ (string_field_bytes s ++ post)).drop (pre.length + 8) = s ++ post := by
    have e : pre ++ (string_field_bytes s ++ post) =
        (pre ++ toLe8 s.length) ++ (s ++ post) := by
      simp [string_field_bytes, List.append_assoc]
    rw [e]
    exact List.drop_left' (by simp [toLe8_length])
  rw [e3, List.take_left' rfl]
  simp [hv]
theorem byte_bne_zero (b : Bool) : ((if b = true then (1 : Nat) else 0) != 0) = b := by
  cases b <;> rfl

/-- Claim C6: parsing is a left inverse of serialization in the fixed
layout (32 raw hash bytes, one boolean byte, eight 8-byte-little-endian
length prefixed UTF-8 strings in field order), for every record carrying the
Rust type's invariants (32-byte hash, valid-UTF-8 strings of usize
length). -/
theorem C6_round_trip (p : ParsedOutputs) (h : WF_public_outputs p) :
    parse_public_outputs (serialize_public_outputs p) = some p := by
  obtain ⟨h32, ⟨v1, l1⟩, ⟨v2, l2⟩, ⟨v3, l3⟩, ⟨v4, l4⟩, ⟨v5, l5⟩, ⟨v6, l6⟩,
    ⟨v7, l7⟩, ⟨v8, l8⟩⟩ := h
  have hp1 : ((p.content_hash ++ [if p.has_c2pa then (1 : Nat) else 0])).length = 33 := by
    simp [string_field_bytes, toLe8_length, h32]
  have e1 : serialize_public_outputs p =
      (p.content_hash ++ [if p.has_c2pa then (1 : Nat) else 0]) ++ (string_field_bytes p.trust_list_match ++ (string_field_bytes p.validation_state ++ (string_field_bytes p.digital_source_type ++ (string_field_bytes p.issuer ++ (string_field_bytes p.common_name ++ (string_field_bytes p.software_agent ++ (string_field_bytes p.signing_time ++ (string_field_bytes p.cert_fingerprint)))))))) := by
    simp [serialize_public_outputs, List.append_assoc]
  have hr1 : read_bincode_string (serialize_public_outputs p) (33) =
      some (p.trust_list_match, 33 + 8 + (p.trust_list_match).length) := by
    rw [e1, ← hp1]
    exact read_bincode_string_append _ _ _ v1 l1
  have hp2 : ((p.content_hash ++ [if p.has_c2pa then (1 : Nat) else 0]) ++ string_field_bytes p.trust_list_match).length = 33 + 8 + (p.trust_list_match).length := by
    simp [string_field_bytes, toLe8_length, h32]
    omega
  have e2 : serialize_public_outputs p =
      (p.content_hash ++ [if p.has_c2pa then (1 : Nat) else 0]) ++ string_field_bytes p.trust_list_match ++ (string_field_bytes p.validation_state ++ (string_field_bytes p.digital_source_type ++ (string_field_bytes p.issuer ++ (string_field_bytes p.common_name ++ (string_field_bytes p.software_agent ++ (string_field_bytes p.signing_time ++ (string_field_bytes p.cert_fingerprint))))))) := by
    simp [serialize_public_outputs, List.append_assoc]
  have hr2 : read_bincode_string (serialize_public_outputs p) (33 + 8 + (p.trust_list_match).length) =
      some (p.validation_state, 33 + 8 + (p.trust_list_match).length + 8 + (p.validation_state).length) := by
    rw [e2, ← hp2]
    exact read_bincode_string_append _ _ _ v2 l2
  have hp3 : ((p.content_hash ++ [if p.has_c2pa then (1 : Nat) else 0]) ++ string_field_bytes p.trust_list_match ++ string_field_bytes p.validation_state).length = 33 + 8 + (p.trust_list_match).length + 8 + (p.validation_state).length := by
    simp [string_field_bytes, toLe8_length, h32]
    omega
  have e3 : serialize_public_outputs p =
      (p.content_hash ++ [if p.has_c2pa then (1 : Nat) else 0]) ++ string_field_bytes p.trust_list_match ++ string_field_bytes p.validation_state ++ (string_field_bytes p.digital_source_type ++ (string_field_bytes p.issuer ++ (string_field_bytes p.common_name ++ (string_field_bytes p.software_agent ++ (string_field_bytes p.signing_time ++ (string_field_bytes p.cert_fingerprint)))))) := by
    simp [serialize_public_outputs, List.append_assoc]
  have hr3 : read_bincode_string (serialize_public_outputs p) (33 + 8 + (p.trust_list_match).length + 8 + (p.validation_state).length) =
      some (p.digital_source_type, 33 + 8 + (p.trust_list_match).length + 8 + (p.validation_state).length + 8 + (p.digital_source_type).length) := by
    rw [e3, ← hp3]
    exact read_bincode_string_append _ _ _ v3 l3
  have hp4 : ((p.content_hash ++ [if p.has_c2pa then (1 : Nat) else 0]) ++ string_field_bytes p.trust_list_match ++ string_field_bytes p.validation_state ++ string_field_bytes p.digital_source_type).length = 33 + 8 + (p.trust_list_match).length + 8 + (p.validation_state).length + 8 + (p.digital_source_type).length := by
    simp [string_field_bytes, toLe8_length, h32]
    omega
  have e4 : serialize_public_outputs p =
      (p.content_hash ++ [if p.has_c2pa then (1 : Nat) else 0]) ++ string_field_bytes p.trust_list_match ++ string_field_bytes p.validation_state ++ string_field_bytes p.digital_source_type ++ (string_field_bytes p.issuer ++ (string_field_bytes p.common_name ++ (string_field_bytes p.software_agent ++ (string_field_bytes p.signing_time ++ (string_field_bytes p.cert_fingerprint))))) := by
    simp [serialize_public_outputs, List.append_assoc]
  have hr4 : read_bincode_string (serialize_public_outputs p) (33 + 8 + (p.trust_list_match).length + 8 + (p.validation_state).length + 8 + (p.digital_source_type).length) =
      some (p.issuer, 33 + 8 + (p.trust_list_match).length + 8 + (p.validation_state).length + 8 + (p.digital_source_type).length + 8 + (p.issuer).length) := by
    rw [e4, ← hp4]
    exact read_bincode_string_append _ _ _ v4 l4
  have hp5 : ((p.content_hash ++ [if p.has_c2pa then (1 : Nat) else 0]) ++ string_field_bytes p.trust_list_match ++ string_field_bytes p.validation_state ++ string_field_bytes p.digital_source_type ++ string_field_bytes p.issuer).length = 33 + 8 + (p.trust_list_match).length + 8 + (p.validation_state).length + 8 + (p.digital_source_type).length + 8 + (p.issuer).length := by
    simp [string_field_bytes, toLe8_length, h32]
    omega
  have e5 : serialize_public_outputs p =
      (p.content_hash ++ [if p.has_c2pa then (1 : Nat) else 0]) ++ string_field_bytes p.trust_list_match ++ string_field_bytes p.validation_state ++ string_field_bytes p.digital_source_type ++ string_field_bytes p.issuer ++ (string_field_bytes p.common_name ++ (string_field_bytes p.software_agent ++ (string_field_bytes p.signing_time ++ (string_field_bytes p.cert_fingerprint)))) := by
    simp [serialize_public_outputs, List.append_assoc]
  have hr5 : read_bincode_string (serialize_public_outputs p) (33 + 8 + (p.trust_list_match).length + 8 + (p.validation_state).length + 8 + (p.digital_source_type).length + 8 + (p.issuer).length) =
      some (p.common_name, 33 + 8 + (p.trust_list_match).length + 8 + (p.validation_state).length + 8 + (p.digital_source_type).length + 8 + (p.issuer).length + 8 + (p.common_name).length) := by
    rw [e5, ← hp5]
    exact read_bincode_string_append _ _ _ v5 l5
  have hp6 : ((p.content_hash ++ [if p.has_c2pa then (1 : Nat) else 0]) ++ string_field_bytes p.trust_list_match ++ string_field_bytes p.validation_state ++ string_field_bytes p.digital_source_type ++ string_field_bytes p.issuer ++ string_field_bytes p.common_name).length = 33 + 8 + (p.trust_list_match).length + 8 + (p.validation_state).length + 8 + (p.digital_source_type).length + 8 + (p.issuer).length + 8 + (p.common_name).length := by
    simp [string_field_bytes, toLe8_length, h32]
    omega
  have e6 : serialize_public_outputs p =
      (p.content_hash ++ [if p.has_c2pa then (1 : Nat) else 0]) ++ string_field_bytes p.trust_list_match ++ string_field_bytes p.validation_state ++ string_field_bytes p.digital_source_type ++ string_field_bytes p.issuer ++ string_field_bytes p.common_name ++ (string_field_bytes p.software_agent ++ (string_field_bytes p.signing_time ++ (string_field_bytes p.cert_fingerprint))) := by
    simp [serialize_public_outputs, List.append_assoc]
  have hr6 : read_bincode_string (serialize_public_outputs p) (33 + 8 + (p.trust_list_match).length + 8 + (p.validation_state).length + 8 + (p.digital_source_type).length + 8 + (p.issuer).length + 8 + (p.common_name).length) =
      some (p.software_agent, 33 + 8 + (p.trust_list_match).length + 8 + (p.validation_state).length + 8 + (p.digital_source_type).length + 8 + (p.issuer).length + 8 + (p.common_name).length + 8 + (p.software_agent).length) := by
    rw [e6, ← hp6]
    exact read_bincode_string_append _ _ _ v6 l6
  have hp7 : ((p.content_hash ++ [if p.has_c2pa then (1 : Nat) else 0]) ++ string_field_bytes p.trust_list_match ++ string_field_bytes p.validation_state ++ string_field_bytes p.digital_source_type ++ string_field_bytes p.issuer ++ string_field_bytes p.common_name ++ string_field_bytes p.software_agent).length = 33 + 8 + (p.trust_list_match).length + 8 + (p.validation_state).length + 8 + (p.digital_source_type).length + 8 + (p.issuer).length + 8 + (p.common_name).length + 8 + (p.software_agent).length := by
    simp [string_field_bytes, toLe8_length, h32]
    omega
  have e7 : serialize_public_outputs p =
      (p.content_hash ++ [if p.has_c2pa then (1 : Nat) else 0]) ++ string_field_bytes p.trust_list_match ++ string_field_bytes p.validation_state ++ string_field_bytes p.digital_source_type ++ string_field_bytes p.issuer ++ string_field_bytes p.common_name ++ string_field_bytes p.software_agent ++ (string_field_bytes p.signing_time ++ (string_field_bytes p.cert_fingerprint)) := by
    simp [serialize_public_outputs, List.append_assoc]
  have hr7 : read_bincode_string (serialize_public_outputs p) (33 + 8 + (p.trust_list_match).length + 8 + (p.validation_state).length + 8 + (p.digital_source_type).length + 8 + (p.issuer).length + 8 + (p.common_name).length + 8 + (p.software_agent).length) =
      some (p.signing_time, 33 + 8 + (p.trust_list_match).length + 8 + (p.validation_state).length + 8 + (p.digital_source_type).length + 8 + (p.issuer).length + 8 + (p.common_name).length + 8 + (p.software_agent).length + 8 + (p.signing_time).length) := by
    rw [e7, ← hp7]
    exact read_bincode_string_append _ _ _ v7 l7
  have hp8 : ((p.content_hash ++ [if p.has_c2pa then (1 : Nat) else 0]) ++ string_field_bytes p.trust_list_match ++ string_field_bytes p.validation_state ++ string_field_bytes p.digital_source_type ++ string_field_bytes p.issuer ++ string_field_bytes p.common_name ++ string_field_bytes p.software_agent ++ string_field_bytes p.signing_time).length = 33 + 8 + (p.trust_list_match).length + 8 + (p.validation_state).length + 8 + (p.digital_source_type).length + 8 + (p.issuer).length + 8 + (p.common_name).length + 8 + (p.software_agent).length + 8 + (p.signing_time).length := by
    simp [string_field_bytes, toLe8_length, h32]
    omega
  have e8 : serialize_public_outputs p =
      (p.content_hash ++ [if p.has_c2pa then (1 : Nat) else 0]) ++ string_field_bytes p.trust_list_match ++ string_field_bytes p.validation_state ++ string_field_bytes p.digital_source_type ++ string_field_bytes p.issuer ++ string_field_bytes p.common_name ++ string_field_bytes p.software_agent ++ string_field_bytes p.signing_time ++ (string_field_bytes p.cert_fingerprint ++ ([] : Bytes)) := by
    simp [serialize_public_outputs, List.append_assoc]
  have hr8 : read_bincode_string (serialize_public_outputs p) (33 + 8 + (p.trust_list_match).length + 8 + (p.validation_state).length + 8 + (p.digital_source_type).length + 8 + (p.issuer).length + 8 + (p.common_name).length + 8 + (p.software_agent).length + 8 + (p.signing_time).length) =
      some (p.cert_fingerprint, 33 + 8 + (p.trust_list_match).length + 8 + (p.validation_state).length + 8 + (p.digital_source_type).length + 8 + (p.issuer).length + 8 + (p.common_name).length + 8 + (p.software_agent).length + 8 + (p.signing_time).length + 8 + (p.cert_fingerprint).length) := by
    rw [e8, ← hp8]
    exact read_bincode_string_append _ _ _ v8 l8
  have h33 : 33 ≤ (serialize_public_outputs p).length := by
    simp [serialize_public_outputs, string_field_bytes, toLe8_length, h32]
    omega
  have htake : (serialize_public_outputs p).take 32 = p.content_hash := by
    rw [e1]
    rw [List.append_assoc]
    exact List.take_left' h32
  have hbyte : (serialize_public_outputs p).getD 32 0 =
      (if p.has_c2pa then (1 : Nat) else 0) := by
    rw [e1, List.append_assoc]
    have hle : p.content_hash.length ≤ 32 := by omega
    simp [List.getD, List.getElem?_append_right hle, h32]
  unfold parse_public_outputs
  rw [if_neg (by omega)]
  rw [if_neg (by omega)]
  simp only [hr1, hr2, hr3, hr4, hr5, hr6, hr7, hr8, htake, hbyte, byte_bne_zero]

/-- Witness for C6: the round trip on a concrete record. -/
theorem C6_round_trip_witness :
    WF_public_outputs poW ∧
    parse_public_outputs (serialize_public_outputs poW) = some poW :=
  ⟨by unfold WF_public_outputs; decide,
   C6_round_trip poW (by unfold WF_public_outputs; decide)⟩

theorem filter_orderedInsert_ne (e : Nat) (x : Frag) (hx : ¬ x.en = e) :
    ∀ s : List Frag, (List.orderedInsert fragLex x s).filter (fun f => f.en == e) =
      s.filter fun f => f.en == e
  | [] => by simp [List.orderedInsert, hx]
  | y :: t => by
    rw [List.orderedInsert]
    split
    · rw [List.filter_cons_of_neg (by simp [hx])]
    · simp only [List.filter_cons, filter_orderedInsert_ne e x hx t]

theorem filter_orderedInsert_eq (e : Nat) (x : Frag) (hx : x.en = e) :
    ∀ s : List Frag, List.Sorted fragLex s →
      (List.orderedInsert fragLex x s).filter (fun f => f.en == e) =
      List.orderedInsert fragZLe x (s.filter fun f => f.en == e)
  | [], _ => by simp [List.orderedInsert, hx]
  | y :: t, hs => by
    have hyt := (List.sorted_cons.mp hs).1
    have ht := (List.sorted_cons.mp hs).2
    rw [List.orderedInsert]
    split
    · rename_i hxy
      rw [List.filter_cons_of_pos (by simp [hx])]
      rcases hxy with hlt | ⟨heq, hz⟩
      · have hfe : (y :: t).filter (fun f => f.en == e) = [] := by
          rw [List.filter_eq_nil]
          intro g hg
          rcases List.mem_cons.mp hg with h1 | h1
          · subst h1
            simp
            omega
          · have := hyt g h1
            rcases this with h2 | ⟨h2, _⟩ <;> simp <;> omega
        rw [hfe]
        simp [List.orderedInsert]
      · have hye : y.en = e := by omega
        rw [List.filter_cons_of_pos (by simp [hye])]
        rw [List.orderedInsert_of_le fragZLe _ (show fragZLe x y from hz)]
    · rename_i hxy
      rw [List.filter_cons]
      rw [filter_orderedInsert_eq e x hx t ht]
      rw [List.filter_cons]
      by_cases hy : y.en = e
      · rw [if_pos (by simp [hy]), if_pos (by simp [hy])]
        have hnz : ¬ fragZLe x y := by
          intro hzxy
          exact hxy (Or.inr ⟨by omega, hzxy⟩)
        rw [List.orderedInsert, if_neg hnz]
      · rw [if_neg (by simp [hy]), if_neg (by simp [hy])]

theorem filter_insertionSort_comm (e : Nat) :
    ∀ l : List Frag, (l.insertionSort fragLex).filter (fun f => f.en == e) =
      (l.filter fun f => f.en == e).insertionSort fragZLe
  | [] => rfl
  | x :: t => by
    rw [List.insertionSort]
    by_cases hx : x.en = e
    · rw [filter_orderedInsert_eq e x hx _ (List.sorted_insertionSort _ _),
        filter_insertionSort_comm e t, List.filter_cons, if_pos (by simp [hx]),
        List.insertionSort]
    · rw [filter_orderedInsert_ne e x hx, filter_insertionSort_comm e t,
        List.filter_cons, if_neg (by simp [hx])]

theorem lowest_en_le : ∀ (l : List Frag) (g : Frag), g ∈ l → lowest_en l ≤ g.en
  | [], g, hg => absurd hg (List.not_mem_nil g)
  | [f], g, hg => by
    rcases List.mem_singleton.mp hg with rfl
    simp [lowest_en]
  | f :: f2 :: rest, g, hg => by
    rw [lowest_en]
    rcases List.mem_cons.mp hg with h1 | h1
    · subst h1
      exact min_le_left _ _
    · exact le_trans (min_le_right _ _) (lowest_en_le (f2 :: rest) g h1)

theorem lowest_en_mem : ∀ (l : List Frag), l ≠ [] → ∃ g ∈ l, lowest_en l = g.en
  | [], h => absurd rfl h
  | [f], _ => ⟨f, by simp, rfl⟩
  | f :: f2 :: rest, _ => by
    rw [lowest_en]
    rcases lowest_en_mem (f2 :: rest) (by simp) with ⟨g, hg, he⟩
    by_cases hc : f.en ≤ lowest_en (f2 :: rest)
    · exact ⟨f, by simp, by rw [min_eq_left hc]⟩
    · exact ⟨g, List.mem_cons_of_mem f hg, by rw [min_eq_right (le_of_not_le hc), he]⟩

theorem insertionSort_head_lowest (l : List Frag) (f0 : Frag) (rest : List Frag)
    (h : l.insertionSort fragLex = f0 :: rest) : f0.en = lowest_en l := by
  have hperm := List.perm_insertionSort fragLex l
  have hsorted := List.sorted_insertionSort fragLex l
  rw [h] at hperm hsorted
  have hmem : f0 ∈ l := hperm.mem_iff.mp (List.mem_cons_self f0 rest)
  have hle : lowest_en l ≤ f0.en := lowest_en_le l f0 hmem
  have hne : l ≠ [] := by
    intro h0
    rw [h0] at h
    simp [List.insertionSort] at h
  rcases lowest_en_mem l hne with ⟨g, hgl, he⟩
  have hgs : g ∈ f0 :: rest := hperm.mem_iff.mpr hgl
  have hf0g : f0.en ≤ g.en := by
    rcases List.mem_cons.mp hgs with h1 | h1
    · rw [h1]
    · have := (List.sorted_cons.mp hsorted).1 g h1
      rcases this with h2 | ⟨h2, _⟩ <;> omega
  omega

theorem C8_core (frags : List Frag) (f0 : Frag) (rest : List Frag)
    (h : frags.insertionSort fragLex = f0 :: rest) :
    ((frags.insertionSort fragLex).filter fun f => f.en == f0.en).flatMap Frag.payload =
    ((frags.filter fun f => f.en == lowest_en frags).insertionSort fragZLe).flatMap
      Frag.payload := by
  rw [filter_insertionSort_comm f0.en frags, insertionSort_head_lowest frags f0 rest h]

/-- Claim C8: for every JPEG input, the extracted JUMBF payload equals the
concatenation, in ascending packet-sequence-number order, of the payloads of
exactly those APP11 `"JP"` fragments whose box instance number `En` is the
lowest `En` present in the file; all other `En` groups are discarded.  (The
code sorts all fragments by the `(En, Z)` key with a stable sort and keeps
the group of the first sorted fragment; this equals filtering the lowest-En
group and stably sorting it by `Z`.) -/
theorem C8_jpeg_reassembly (data : Bytes) :
    extract_c2pa_from_jpeg data = jpeg_spec data := by
  unfold extract_c2pa_from_jpeg jpeg_spec
  by_cases hpre : (([0xFF, 0xD8, 0xFF] : Bytes).isPrefixOf data) = true
  · have hp2 : ¬ ¬ (([0xFF, 0xD8, 0xFF] : Bytes).isPrefixOf data) = true := not_not_intro hpre
    rw [if_neg hp2, if_neg hp2]
    by_cases hemp : (scanJpegSegments data 2).isEmpty = true
    · rw [if_pos hemp, if_pos hemp]
    · rw [if_neg hemp, if_neg hemp]
      cases hs : (scanJpegSegments data 2).insertionSort fragLex with
      | nil =>
        exfalso
        have hlen := List.length_insertionSort fragLex (scanJpegSegments data 2)
        rw [hs] at hlen
        have h0 : scanJpegSegments data 2 = [] := by
          cases hsc : scanJpegSegments data 2
          · rfl
          · rw [hsc] at hlen
            simp at hlen
        rw [h0] at hemp
        simp at hemp
      | cons f0 rest =>
        have hcore := C8_core (scanJpegSegments data 2) f0 rest hs
        rw [hs] at hcore
        simp only [hcore]
  · have hp2 : ¬ (([0xFF, 0xD8, 0xFF] : Bytes).isPrefixOf data) = true := hpre
    rw [if_pos hp2, if_pos hp2]
